import Mathlib

/-!
# Rawstudio: filename templates (`src/filename.c`) and the curve widget (`librawstudio/rs-curve.c`)

A shallow embedding of `filename_parse` and of the state-changing operations of
`RSCurveWidget`, with the properties claimed of them.

Conventions of the embedding.

* A C string is the list of its characters before the terminating NUL.
* `temp[1024]` is a function from index to character together with a bounds check on
  every write; its initial contents are an argument (`temp0`), because the array is an
  uninitialised automatic variable.
* A run of the code that leaves defined behaviour ends in a `Fault`.
* Library routines whose source is not part of the repository (GLib, libxml2, strftime,
  floating point formatting) are fields of an environment record.
-/

namespace Rawstudio

/-! ## filename.c -/

/-- A C string: the characters before the terminating NUL. -/
abbrev gstr := List Char

/-- The string terminator. -/
abbrev NUL : Char := Char.ofNat 0

/-- Ways in which a run of `filename_parse` leaves defined behaviour or is cut short. -/
inductive Fault where
  /-- The scan index `n` has moved past the terminator of `in` and `in[n]` is read. -/
  | overrun
  /-- A write outside `gchar temp[1024]`. -/
  | overflow
  /-- The `do ... while (file_exists)` loop was stopped after the allotted number of passes. -/
  | fuel
  /-- The statement `i++` with `i` the largest `gint`, 2^31 - 1: signed overflow. -/
  | counter
  deriving DecidableEq, Repr

instance instDecidableEqExcept {ε α : Type} [DecidableEq ε] [DecidableEq α] :
    DecidableEq (Except ε α)
  | .ok a, .ok b => if h : a = b then isTrue (by rw [h]) else isFalse (by intro h1; cases h1; exact h rfl)
  | .error a, .error b =>
    if h : a = b then isTrue (by rw [h]) else isFalse (by intro h1; cases h1; exact h rfl)
  | .ok _, .error _ => isFalse (by intro h; cases h)
  | .error _, .ok _ => isFalse (by intro h; cases h)

/-- Size of `gchar temp[1024]`. -/
def TEMP_SIZE : Nat := 1024

/-- The local variables of `filename_parse` that the scan loop updates:
`temp`, `m` and `counter` (`n` is the position in the template list). -/
structure PState where
  temp : Nat → Char
  m : Nat
  counter : Bool

/-- Store `c` at index `k`. -/
def poke (t : Nat → Char) (k : Nat) (c : Char) : Nat → Char :=
  fun j => if j = k then c else t j

/-- Store the characters of `s` from index `k` on. -/
def pokes (t : Nat → Char) (k : Nat) : List Char → Nat → Char
  | [] => t
  | c :: s => pokes (poke t k c) (k + 1) s

/-- The statement `temp[m++] = c`. -/
def put (c : Char) (st : PState) : Except Fault PState :=
  if st.m < TEMP_SIZE then
    .ok { st with temp := poke st.temp st.m c, m := st.m + 1 }
  else .error .overflow

/-- The statement `strcpy(&temp[m], s)`: the characters of `s` and a terminator are stored
from index `m` on; `m` itself is not changed. -/
def strcpy (s : gstr) (st : PState) : Except Fault PState :=
  if st.m + s.length < TEMP_SIZE then
    .ok { st with temp := poke (pokes st.temp st.m s) (st.m + s.length) NUL }
  else .error .overflow

/-- The pair `strcpy(&temp[m], s); m += strlen(s);`. -/
def emit (s : gstr) (st : PState) : Except Fault PState :=
  match strcpy s st with
  | .error e => .error e
  | .ok st1 => .ok { st1 with m := st1.m + s.length }

/-- What `sprintf(tempc, "%0Nd", i)` leaves in `tempc` for a non-negative `i`: the decimal
digits of `i`, preceded by as many zeros as are needed to reach `width` characters. -/
def sprintf_0d (width : Nat) (i : Nat) : gstr :=
  List.replicate (width - (Nat.toDigits 10 i).length) '0' ++ Nat.toDigits 10 i

/-- What `g_sprintf(tempc, "%d", i)` leaves in `tempc` for a non-negative `i`. -/
def sprintf_d (i : Nat) : gstr := Nat.toDigits 10 i

/-- The chain `if (c == 49) sprintf(tempc, "%01d", i); else if (c == 50) ...` of the
`%Nc` token, `c` being the character code of the digit. In the source the chain has no
final `else`; it is entered only with `c` in 49..57. -/
def sprintf_tempc (c : Nat) (i : Nat) : gstr :=
  if c = 49 then sprintf_0d 1 i
  else if c = 50 then sprintf_0d 2 i
  else if c = 51 then sprintf_0d 3 i
  else if c = 52 then sprintf_0d 4 i
  else if c = 53 then sprintf_0d 5 i
  else if c = 54 then sprintf_0d 6 i
  else if c = 55 then sprintf_0d 7 i
  else if c = 56 then sprintf_0d 8 i
  else if c = 57 then sprintf_0d 9 i
  else []

/-- The case labels `'1'` to `'9'`. -/
def is_digit19 (d : Char) : Bool :=
  d = '1' || d = '2' || d = '3' || d = '4' || d = '5' || d = '6' || d = '7' || d = '8' || d = '9'

/-- The text that the C library produces from the metadata record: the results of the
`strftime` calls on `metadata->timestamp` and of the `sprintf` calls on `iso`,
`shutterspeed`, `aperture` and `focallength`. Date arithmetic and floating point
formatting are not modelled; their results are given. -/
structure RSMetadata where
  /-- Result of `strftime(result, 11, "%Y-%m-%d", tm)`. -/
  date : gstr
  /-- Result of `strftime(result, 3, "%U", tm)`. -/
  week_sunday : gstr
  /-- Result of `strftime(result, 3, "%W", tm)`. -/
  week_monday : gstr
  /-- Result of `strftime` with `"%y"`. -/
  year2 : gstr
  /-- Result of `strftime` with `"%Y"`. -/
  year4 : gstr
  /-- Result of `strftime` with `"%m"`. -/
  month : gstr
  /-- Result of `strftime` with `"%B"`. -/
  month_name : gstr
  /-- Result of `strftime` with `"%d"`. -/
  day : gstr
  /-- Result of `strftime` with `"%A"`. -/
  day_name : gstr
  /-- Result of `strftime(result, 9, "%H:%M:%S", tm)`. -/
  time : gstr
  /-- Result of `sprintf(result, "%d", metadata->iso)`. -/
  iso : gstr
  /-- Result of `sprintf(result, "%d", (int)(0.4999f + metadata->shutterspeed))`. -/
  shutter_inverted : gstr
  /-- Result of the `%0.3f` or `%0.5f` rendering of `1.0f / metadata->shutterspeed`. -/
  shutter_seconds : gstr
  /-- Result of `sprintf(result, "%0.1f", metadata->aperture)`. -/
  aperture : gstr
  /-- Result of `sprintf(result, "%d", metadata->focallength)`. -/
  focallength : gstr

/-- The library routines `filename_parse` calls. -/
structure Env where
  /-- GLib `g_path_get_basename`. -/
  g_path_get_basename : gstr → gstr
  /-- GLib `g_path_get_dirname`. -/
  g_path_get_dirname : gstr → gstr
  /-- GLib `g_file_test(name, G_FILE_TEST_EXISTS)`. -/
  g_file_test : gstr → Bool
  /-- `rs_metadata_new()`. -/
  rs_metadata_new : RSMetadata
  /-- `rs_metadata_new_from_file(filename)`; it is called before the NULL test on
  `filename`. -/
  rs_metadata_new_from_file : Option gstr → RSMetadata

/-- The inner `switch (in[n+2])` of the `%D` token: the text left in `result`. -/
def date_field (md : RSMetadata) (e : Char) : gstr :=
  if e = 'y' then md.year2
  else if e = 'Y' then md.year4
  else if e = 'm' then md.month
  else if e = 'M' then md.month_name
  else if e = 'd' then md.day
  else if e = 'D' then md.day_name
  else []

/-- The inner `switch (in[n+2])` of the `%M` token: the text left in `result`. -/
def meta_field (md : RSMetadata) (e : Char) : gstr :=
  if e = 'i' then md.iso
  else if e = 'S' then md.shutter_inverted
  else if e = 's' then md.shutter_seconds
  else if e = 'a' then md.aperture
  else if e = 'f' then md.focallength
  else []

/-- The `case 's'` branch: `switch (snapshot)` stores "A", "B" or "C" (with terminator) for
0, 1, 2 and stores nothing for any other value; then `m += 1`. -/
def setting (snapshot : Int) (st : PState) : Except Fault PState :=
  match (if snapshot = 0 then strcpy ['A'] st
         else if snapshot = 1 then strcpy ['B'] st
         else if snapshot = 2 then strcpy ['C'] st
         else .ok st) with
  | .error e => .error e
  | .ok st1 => .ok { st1 with m := st1.m + 1 }

/-- The `default` branch of `switch (in[n+1])`: `temp[m++] = in[n]; temp[m++] = in[n+1];`. -/
def copy2 (d : Char) (st : PState) : Except Fault PState :=
  (put '%' st).bind (put d)

/-- The `default` branch of `switch (in[n+2])` under a digit:
`temp[m++] = in[n]; temp[m++] = in[n+1]; temp[m++] = in[n+2];`. -/
def copy3 (d e : Char) (st : PState) : Except Fault PState :=
  ((put '%' st).bind (put d)).bind (put e)

/-- The characters after `%` whose branch reads `in[n+2]` and ends with `n += 3`:
the digits `'1'` to `'9'`, `'D'` and `'M'`. Every other branch ends with `n += 2`. -/
def long_token (d : Char) : Bool :=
  is_digit19 d || d = 'D' || d = 'M'

/-- The branches of `switch (in[n+1])` that end with `n += 2`, `d` being `in[n+1]`:
`'f'`, `'c'`, `'s'`, `'d'`, `'w'`, `'W'`, `'t'`, `'p'` and `default`. -/
def token2 (md : RSMetadata) (basename path : gstr) (snapshot : Int) (i : Nat)
    (d : Char) (st : PState) : Except Fault PState :=
  if d = 'f' then emit basename st
  else if d = 'c' then emit (sprintf_d i) { st with counter := true }
  else if d = 's' then setting snapshot st
  else if d = 'd' then emit md.date st
  else if d = 'w' then emit md.week_sunday st
  else if d = 'W' then emit md.week_monday st
  else if d = 't' then emit md.time st
  else if d = 'p' then emit path st
  else copy2 d st

/-- The branches of `switch (in[n+1])` that end with `n += 3`, `d` being `in[n+1]` and `e`
being `in[n+2]`: under a digit the inner switch has `case 'c'` (the padded counter) and a
`default` that copies the three characters; under `'D'` and `'M'` a field is rendered. -/
def token3 (md : RSMetadata) (i : Nat) (d e : Char) (st : PState) : Except Fault PState :=
  if is_digit19 d then
    if e = 'c' then emit (sprintf_tempc d.toNat i) { st with counter := true }
    else copy3 d e st
  else if d = 'D' then emit (date_field md e) st
  else emit (meta_field md e) st

/-- The loop `while (in[n]) switch (in[n]) ...`. The list argument is the template from
index `n` on, so `in[n]`, `in[n+1]`, `in[n+2]` are its first three elements, and where the
list ends the terminator NUL is read. The branches are grouped by the amount added to `n`
(`token2`, `token3`). Where the code adds 2 or 3 to `n` and thereby steps over the
terminator, the next test of `in[n]` reads outside the string (`Fault.overrun`). -/
def scan (md : RSMetadata) (basename path : gstr) (snapshot : Int) (i : Nat) :
    List Char → PState → Except Fault PState
  | [], st => .ok st
  | c :: rest, st =>
    if c = '%' then
      match rest with
      | [] =>
        (token2 md basename path snapshot i NUL st).bind fun _ => .error .overrun
      | d :: rest2 =>
        if long_token d then
          match rest2 with
          | [] => (token3 md i d NUL st).bind fun _ => .error .overrun
          | e :: rest3 => (token3 md i d e st).bind (scan md basename path snapshot i rest3)
        else (token2 md basename path snapshot i d st).bind (scan md basename path snapshot i rest2)
    else (put c st).bind (scan md basename path snapshot i rest)

/-- Read of a C string out of `temp` starting at index `k`: the characters up to the first
NUL. `fuel` bounds the read by the size of the array. -/
def read_cstr (t : Nat → Char) : Nat → Nat → gstr
  | 0, _ => []
  | fuel + 1, k => if t k = NUL then [] else t k :: read_cstr t fuel (k + 1)

/-- The call `g_strdup(temp)`. -/
def g_strdup (t : Nat → Char) : gstr := read_cstr t TEMP_SIZE 0

/-- One pass of the body of the `do ... while` loop up to the assignment of `output`:
the scan with `n = 0`, `m = 0`, then `temp[m] = 0` and `g_strdup(temp)`. Returns the
array, the `counter` flag and `output`. -/
def pass (md : RSMetadata) (basename path : gstr) (snapshot : Int) (tmpl : gstr) (i : Nat)
    (temp : Nat → Char) (counter : Bool) : Except Fault ((Nat → Char) × Bool × gstr) :=
  match scan md basename path snapshot i tmpl { temp := temp, m := 0, counter := counter } with
  | .error e => .error e
  | .ok st =>
    if st.m < TEMP_SIZE then
      let temp1 := poke st.temp st.m NUL
      .ok (temp1, st.counter, g_strdup temp1)
    else .error .overflow

/-- The `do ... while (file_exists == TRUE)` loop. `fuel` is the number of passes allowed.
The counter is `gint i = 1`, and every pass, the last one too, ends in `i++` before the
loop condition is tested: the value of `i` is held as a natural number inside the range of
`gint`, and the increment of `i = 2^31 - 1` is `Fault.counter`. -/
def parse_loop (E : Env) (md : RSMetadata) (basename path : gstr) (snapshot : Int) (tmpl : gstr) :
    Nat → Nat → (Nat → Char) → Bool → Except Fault gstr
  | 0, _, _, _ => .error .fuel
  | fuel + 1, i, temp, counter =>
    match pass md basename path snapshot tmpl i temp counter with
    | .error e => .error e
    | .ok (temp1, counter1, output) =>
      let file_exists := E.g_file_test output
      let file_exists := if counter1 = false then false else file_exists
      if i < 2147483647 then
        if file_exists = true then
          parse_loop E md basename path snapshot tmpl fuel (i + 1) temp1 counter1
        else .ok output
      else .error .counter

/-- The call `g_strrstr(basename, ".")`: the index of the last dot of the string, or `none`
(a NULL result) when it has no dot. -/
def g_strrstr_dot : List Char → Option Nat
  | [] => none
  | c :: s =>
    match g_strrstr_dot s with
    | some k => some (k + 1)
    | none => if c = '.' then some 0 else none

/-- The statements `output = g_strrstr(basename, "."); if (output != NULL) *output = 0;`:
the base name is cut at its last dot, if it has one. -/
def cut_extension (basename : gstr) : gstr :=
  match g_strrstr_dot basename with
  | none => basename
  | some k => basename.take k

/-- The function `filename_parse(in, filename, snapshot, load_metadata)`. A NULL pointer
argument is `none`, and so is a NULL result. -/
def filename_parse (E : Env) (fuel : Nat) (temp0 : Nat → Char) (tmpl : Option gstr)
    (filename : Option gstr) (snapshot : Int) (load_metadata : Bool) :
    Except Fault (Option gstr) :=
  let metadata :=
    if load_metadata then E.rs_metadata_new_from_file filename else E.rs_metadata_new
  match filename with
  | none => .ok none
  | some fname =>
    match tmpl with
    | none => .ok none
    | some tpl =>
      let basename := cut_extension (E.g_path_get_basename fname)
      let path := E.g_path_get_dirname fname
      match parse_loop E metadata basename path snapshot tpl fuel 1 temp0 false with
      | .error e => .error e
      | .ok output => .ok (some output)

/-- The template contains a counter token: read token by token the way `scan` reads it,
a `%c` or a `%Nc` (`N` a digit 1..9) occurs in it. -/
def counter_token : List Char → Bool
  | [] => false
  | c :: rest =>
    if c = '%' then
      match rest with
      | [] => false
      | d :: rest2 =>
        if long_token d then
          match rest2 with
          | [] => false
          | e :: rest3 => (is_digit19 d && decide (e = 'c')) || counter_token rest3
        else decide (d = 'c') || counter_token rest2
    else counter_token rest

/-- The array and the `counter` flag after the passes of the loop body for the counter
values 1, ..., k, starting from the uninitialised array `temp0` and `counter = FALSE`. -/
def pass_state (md : RSMetadata) (basename path : gstr) (snapshot : Int) (tmpl : gstr)
    (temp0 : Nat → Char) : Nat → Except Fault ((Nat → Char) × Bool)
  | 0 => .ok (temp0, false)
  | k + 1 =>
    (pass_state md basename path snapshot tmpl temp0 k).bind fun tc =>
      (pass md basename path snapshot tmpl (k + 1) tc.1 tc.2).bind fun r => .ok (r.1, r.2.1)

/-- The `output` of the pass of the loop body for the counter value `i`, run on the array
that the passes for 1, ..., i - 1 have left. -/
def pass_output (md : RSMetadata) (basename path : gstr) (snapshot : Int) (tmpl : gstr)
    (temp0 : Nat → Char) (i : Nat) : Except Fault gstr :=
  (pass_state md basename path snapshot tmpl temp0 (i - 1)).bind fun tc =>
    (pass md basename path snapshot tmpl i tc.1 tc.2).bind fun r => .ok r.2.2

/-- The expansion of the template with counter value `i` in a call
`filename_parse(in, filename, snapshot, load_metadata)` with non-NULL `in` and `filename`:
the `output` of the pass for `i`. -/
def expansion (E : Env) (temp0 : Nat → Char) (tpl fname : gstr) (snapshot : Int)
    (load_metadata : Bool) (i : Nat) : Except Fault gstr :=
  pass_output
    (if load_metadata then E.rs_metadata_new_from_file (some fname) else E.rs_metadata_new)
    (cut_extension (E.g_path_get_basename fname)) (E.g_path_get_dirname fname)
    snapshot tpl temp0 i

/-- The expansion with counter value `i` is the name of an existing file. -/
def names_existing (E : Env) (temp0 : Nat → Char) (tpl fname : gstr) (snapshot : Int)
    (load_metadata : Bool) (i : Nat) : Prop :=
  ∃ o, expansion E temp0 tpl fname snapshot load_metadata i = .ok o ∧ E.g_file_test o = true

/-- The characters that start a token when they follow `%`:
`1`-`9`, `f`, `c`, `s`, `d`, `w`, `W`, `D`, `M`, `t`, `p`. -/
def token_char (d : Char) : Bool :=
  is_digit19 d || d = 'f' || d = 'c' || d = 's' || d = 'd' || d = 'w' || d = 'W' ||
    d = 'D' || d = 'M' || d = 't' || d = 'p'

/-- Every `%` of the template is followed by a character, and that character starts no
token. -/
def plain : List Char → Bool
  | [] => true
  | c :: rest =>
    (c != '%' || (match rest with
                  | [] => false
                  | d :: _ => !token_char d)) && plain rest

/-- The array `t` holds the characters of `s` at the indices `0 .. s.length - 1`. -/
def Holds (t : Nat → Char) (s : List Char) : Prop :=
  ∀ k c, s[k]? = some c → t k = c

/-- The array transformer `f` stores fixed characters at fixed indices and leaves every
other index as it is. -/
def IsStore (f : (Nat → Char) → Nat → Char) : Prop :=
  ∃ d : Nat → Option Char, ∀ t j, f t j = (d j).getD (t j)

/-- The statements `A` never read the array: started with given `m` and `counter` they
either fault whatever the array holds, or end with one and the same `m`, `counter` and
store into the array. -/
def Blind (A : PState → Except Fault PState) : Prop :=
  ∀ m c, (∃ e, ∀ t, A { temp := t, m := m, counter := c } = .error e) ∨
    (∃ f m1 c1, IsStore f ∧
      ∀ t, A { temp := t, m := m, counter := c } = .ok { temp := f t, m := m1, counter := c1 })

/-! ## rs-curve.c -/

/-- The routines of `rs-spline.c` that the widget calls. Their source is not available,
so they are an interface over a type `S` of splines and a type `F` of `gfloat` values.
A routine that changes the spline in place returns the changed spline.
`rs_spline_sample s old n` is the content of a caller array of `n` samples after
`rs_spline_sample(s, array, n)`, `old` being its content before the call.
`length_unsigned` tells whether `rs_spline_length` is declared with result type `guint`
(`true`) or `gint` (`false`); the header with the declaration is missing as well. Knot
counts are below 2^31. -/
structure SplineOps (S F : Type) where
  rs_spline_new : S
  rs_spline_add : S → F → F → S
  rs_spline_move : S → Int → F → F → S
  rs_spline_delete : S → Int → S
  rs_spline_length : S → Nat
  rs_spline_get_knots : S → List (F × F)
  rs_spline_sample : S → List F → Nat → List F
  length_unsigned : Bool

/-- The fields of `struct _RSCurveWidget` that the modelled routines read or write.
`array` is `none` for a NULL pointer and otherwise the address of the caller array;
`delay_update` is the id of the pending timeout, 0 for none. -/
structure RSCurveWidget (S : Type) where
  spline : S
  active_knot : Int
  array : Option Nat
  array_length : Nat
  delay_update : Nat

/-- The widget together with what its routines act on outside of it: the contents of the
caller arrays by address, and the numbers of `changed` and `right-click` signals emitted
so far (what the connected handlers do is not modelled, and neither are the requests to
redraw). -/
structure World (S F : Type) where
  curve : RSCurveWidget S
  heap : Nat → List F
  changed : Nat
  right_click : Nat

/-- The routine `rs_curve_widget_init`. GObject hands it zero-filled memory, so the
field `active_knot`, which the routine does not set, starts as 0. -/
def rs_curve_widget_init {S F : Type} (ops : SplineOps S F) (heap : Nat → List F) : World S F :=
  { curve := { spline := ops.rs_spline_new, active_knot := 0, array := none,
               array_length := 0, delay_update := 0 },
    heap := heap, changed := 0, right_click := 0 }

/-- The routine `rs_curve_widget_set_array`. -/
def rs_curve_widget_set_array {S F : Type} (w : World S F) (array : Option Nat)
    (array_length : Nat) : World S F :=
  if array.isSome ∧ array_length ≠ 0 then
    { w with curve := { w.curve with array := array, array_length := array_length } }
  else
    { w with curve := { w.curve with array := none, array_length := 0 } }

/-- The routine `rs_curve_widget_sample(curve, samples, nbsamples)` as far as it writes
memory: with a non-NULL `samples` the array at that address is overwritten by
`rs_spline_sample`; with NULL a fresh array is allocated and returned, and no existing
array is written. -/
def rs_curve_widget_sample {S F : Type} (ops : SplineOps S F) (w : World S F)
    (samples : Option Nat) (nbsamples : Nat) : World S F :=
  match samples with
  | some p =>
    { w with heap := fun q =>
        if q = p then ops.rs_spline_sample w.curve.spline (w.heap p) nbsamples else w.heap q }
  | none => w

/-- The routine `rs_curve_changed`. -/
def rs_curve_changed {S F : Type} (ops : SplineOps S F) (w : World S F) : World S F :=
  let w1 :=
    if w.curve.array_length > 0 then
      rs_curve_widget_sample ops w w.curve.array w.curve.array_length
    else w
  { w1 with changed := w1.changed + 1 }

/-- The routine `rs_curve_widget_add_knot`. -/
def rs_curve_widget_add_knot {S F : Type} (ops : SplineOps S F) (w : World S F) (x y : F) :
    World S F :=
  let w1 := { w with curve := { w.curve with active_knot := -1 } }
  let w2 := { w1 with curve := { w1.curve with spline := ops.rs_spline_add w1.curve.spline x y } }
  rs_curve_changed ops w2

/-- Conversion of a `gint` to `guint`. -/
def as_guint (k : Int) : Int := k % 4294967296

/-- The test `knot >= rs_spline_length(spline)` with `knot` a `gint`: a comparison of
`gint`s, or of `guint`s when `rs_spline_length` is declared unsigned. -/
def ge_length (unsigned : Bool) (knot : Int) (len : Nat) : Bool :=
  if unsigned then decide (as_guint knot ≥ as_guint len) else decide (knot ≥ len)

/-- The test `knot < rs_spline_length(spline) - 1` with `knot` a `gint`. -/
def lt_length_minus_one (unsigned : Bool) (knot : Int) (len : Nat) : Bool :=
  if unsigned then decide (as_guint knot < as_guint ((len : Int) - 1))
  else decide (knot < (len : Int) - 1)

/-- The test `knot == rs_spline_length(spline) - 1` with `knot` a `gint`. -/
def eq_length_minus_one (unsigned : Bool) (knot : Int) (len : Nat) : Bool :=
  if unsigned then decide (as_guint knot = as_guint ((len : Int) - 1))
  else decide (knot = (len : Int) - 1)

/-- The index that `rs_curve_widget_move_knot` hands to `rs_spline_move`: the two `if`
statements on `knot`. The value `rs_spline_length(spline) - 1` stored into the `gint`
is `len - 1` under either declaration. -/
def move_knot_index (unsigned : Bool) (len : Nat) (knot : Int) : Int :=
  let knot1 := if knot < 0 then (len : Int) - 1 else knot
  if ge_length unsigned knot1 len then (len : Int) - 1 else knot1

/-- The routine `rs_curve_widget_move_knot`. -/
def rs_curve_widget_move_knot {S F : Type} (ops : SplineOps S F) (w : World S F) (knot : Int)
    (x y : F) : World S F :=
  let knot1 := move_knot_index ops.length_unsigned (ops.rs_spline_length w.curve.spline) knot
  rs_curve_changed ops
    { w with curve := { w.curve with spline := ops.rs_spline_move w.curve.spline knot1 x y } }

/-- The routine `rs_curve_widget_set_knots(curve, knots, nknots)`; `knots` is `none` for a
NULL pointer and otherwise the `nknots` pairs of the array. -/
def rs_curve_widget_set_knots {S F : Type} (ops : SplineOps S F) (w : World S F)
    (knots : Option (List (F × F))) : World S F :=
  match knots with
  | none => w
  | some ks =>
    let spline := ks.foldl (fun s k => ops.rs_spline_add s k.1 k.2) ops.rs_spline_new
    rs_curve_changed ops { w with curve := { w.curve with spline := spline } }

/-- The routine `rs_curve_widget_reset`. -/
def rs_curve_widget_reset {S F : Type} (ops : SplineOps S F) (w : World S F) : World S F :=
  rs_curve_changed ops { w with curve := { w.curve with spline := ops.rs_spline_new } }

/-- A node of a parsed XML document as `rs_curve_widget_load` looks at it: its name, the
result of `xmlNodeListGetString(doc, node->xmlChildrenNode, 1)` (`none` for NULL, which
libxml2 returns for a node without content) and its children in document order. -/
inductive XmlNode where
  | mk (name : gstr) (text : Option gstr) (children : List XmlNode)

/-- The field `name` of a node. -/
def XmlNode.name : XmlNode → gstr
  | .mk n _ _ => n

/-- The text content of a node. -/
def XmlNode.text : XmlNode → Option gstr
  | .mk _ t _ => t

/-- The chain `xmlChildrenNode`, `next`, ... of a node. -/
def XmlNode.children : XmlNode → List XmlNode
  | .mk _ _ c => c

/-- A parsed document: the root element `xmlDocGetRootElement(doc)` followed by the nodes
its `next` chain leads to. -/
abbrev XmlDoc := List XmlNode

/-- The library and helper routines `rs_curve_widget_load` calls. -/
structure CurveEnv (F : Type) where
  /-- GLib `g_file_test(filename, G_FILE_TEST_IS_REGULAR)`. -/
  g_file_test_regular : gstr → Bool
  /-- libxml2 `xmlParseFile`; `none` is the NULL result for a file that does not parse. -/
  xmlParseFile : gstr → Option XmlDoc
  /-- The helper `rs_atof` of the repository. -/
  rs_atof : gstr → F

/-- A string cut at every occurrence of the delimiter `" "`. -/
def split_space : gstr → List gstr
  | [] => [[]]
  | c :: s =>
    if c = ' ' then [] :: split_space s
    else
      match split_space s with
      | [] => [[c]]
      | h :: t => (c :: h) :: t

/-- GLib `g_strsplit(string, " ", max_tokens)` for a non-NULL string and a positive
`max_tokens`: the empty string gives the empty vector; otherwise the string is cut at the
delimiter into at most `max_tokens` pieces, the last of which holds the remainder. -/
def g_strsplit (string : gstr) (max_tokens : Nat) : List gstr :=
  if string = [] then []
  else
    let pieces := split_space string
    if pieces.length ≤ max_tokens then pieces
    else pieces.take (max_tokens - 1) ++ [[' '].intercalate (pieces.drop (max_tokens - 1))]

/-- Ways in which a run of a widget routine leaves defined behaviour. -/
inductive CurveFault where
  /-- The read `vals[0]` with `vals` NULL: `g_strsplit` returns NULL for a NULL string. -/
  | null_vector
  deriving DecidableEq, Repr

/-- The body of `while (curknot)` in `rs_curve_widget_load` for one child of a `Curve`
node. -/
def load_knot {S F : Type} (ops : SplineOps S F) (env : CurveEnv F) (w : World S F)
    (curknot : XmlNode) : Except CurveFault (World S F) :=
  if curknot.name = "AnchorXY".toList then
    match curknot.text with
    | none => .error .null_vector
    | some val =>
      match g_strsplit val 4 with
      | v0 :: v1 :: _ => .ok (rs_curve_widget_add_knot ops w (env.rs_atof v0) (env.rs_atof v1))
      | _ => .ok w
  else .ok w

/-- The loop `while (curknot)` over the children of a `Curve` node. -/
def load_knots {S F : Type} (ops : SplineOps S F) (env : CurveEnv F) :
    World S F → List XmlNode → Except CurveFault (World S F)
  | w, [] => .ok w
  | w, k :: ks =>
    match load_knot ops env w k with
    | .error e => .error e
    | .ok w1 => load_knots ops env w1 ks

/-- The loop `while (nknots--) rs_spline_delete(curve->spline, nknots);`: the indices
`nknots - 1` down to 0 are deleted. -/
def delete_knots {S F : Type} (ops : SplineOps S F) (s : S) : Nat → S
  | 0 => s
  | n + 1 => delete_knots ops (ops.rs_spline_delete s n) n

/-- The body of `while (cur)` in `rs_curve_widget_load` for one top level node. -/
def load_node {S F : Type} (ops : SplineOps S F) (env : CurveEnv F) (w : World S F)
    (cur : XmlNode) : Except CurveFault (World S F) :=
  if cur.name = "Curve".toList then
    let nknots := (ops.rs_spline_get_knots w.curve.spline).length
    let w1 := { w with curve := { w.curve with spline := delete_knots ops w.curve.spline nknots } }
    load_knots ops env w1 cur.children
  else .ok w

/-- The loop `while (cur)` over the root element and the nodes that follow it. -/
def load_nodes {S F : Type} (ops : SplineOps S F) (env : CurveEnv F) :
    World S F → List XmlNode → Except CurveFault (World S F)
  | w, [] => .ok w
  | w, n :: ns =>
    match load_node ops env w n with
    | .error e => .error e
    | .ok w1 => load_nodes ops env w1 ns

/-- The routine `rs_curve_widget_load(curve, filename)`: the state after the call and the
`gboolean` it returns. -/
def rs_curve_widget_load {S F : Type} (ops : SplineOps S F) (env : CurveEnv F) (w : World S F)
    (filename : Option gstr) : Except CurveFault (World S F × Bool) :=
  match filename with
  | none => .ok (w, false)
  | some fname =>
    if env.g_file_test_regular fname = false then .ok (w, false)
    else
      match env.xmlParseFile fname with
      | none => .ok (w, false)
      | some doc =>
        match load_nodes ops env w doc with
        | .error e => .error e
        | .ok w1 => .ok (w1, true)

/-- A `GdkEventButton` as `rs_curve_widget_button_press` uses it: the button, whether
`event->state & GDK_SHIFT_MASK` is set, and the curve coordinates `x = event->x / w`,
`y = 1.0 - event->y / h` (floating point, taken as given). -/
structure GdkEventButton (F : Type) where
  button : Nat
  shift : Bool
  x : F
  y : F

/-- The routine `rs_curve_widget_button_press`. -/
def rs_curve_widget_button_press {S F : Type} (ops : SplineOps S F) (w : World S F)
    (event : GdkEventButton F) : World S F :=
  let button := if event.button = 1 ∧ event.shift = true then 2 else event.button
  if button = 1 ∧ w.curve.active_knot = -1 then
    rs_curve_widget_add_knot ops w event.x event.y
  else if button = 1 ∧ w.curve.active_knot ≥ 0 then
    { w with curve := { w.curve with
        spline := ops.rs_spline_move w.curve.spline w.curve.active_knot event.x event.y } }
  else if button = 2 ∧ w.curve.active_knot > 0 ∧
      lt_length_minus_one ops.length_unsigned w.curve.active_knot
        (ops.rs_spline_length w.curve.spline) = true then
    { w with curve := { w.curve with
        spline := ops.rs_spline_delete w.curve.spline w.curve.active_knot,
        active_knot := -1 } }
  else if button = 3 then
    { w with right_click := w.right_click + 1 }
  else w

/-- The routine `rs_curve_widget_button_release`. -/
def rs_curve_widget_button_release {S F : Type} (ops : SplineOps S F) (w : World S F) :
    World S F :=
  rs_curve_changed ops w

/-- A `GdkEventMotion` as `rs_curve_widget_motion_notify` uses it. The floating point
work on the pointer position is taken as given: `x`, `y` are the clamped curve
coordinates; `collides_prev s k` is the test `event->x <= knots[(k-1)*2]` and
`collides_next s k` the test `event->x >= knots[(k+1)*2]` on the knots of `s` in pixels;
`nearest s` is the result of the search for the knot below the cursor (-1 for none);
`timeout_id` is the id the call of `g_timeout_add` returns (positive in GLib). -/
structure GdkEventMotion (S F : Type) where
  button1 : Bool
  x : F
  y : F
  collides_prev : S → Int → Bool
  collides_next : S → Int → Bool
  nearest : S → Int
  timeout_id : Nat

/-- The routine `rs_curve_widget_motion_notify`. -/
def rs_curve_widget_motion_notify {S F : Type} (ops : SplineOps S F) (w : World S F)
    (event : GdkEventMotion S F) : World S F :=
  let knots := w.curve.spline
  if event.button1 = true ∧ w.curve.active_knot ≥ 0 then
    let c1 : RSCurveWidget S :=
      if w.curve.active_knot = 0 then
        { w.curve with
          spline := ops.rs_spline_move w.curve.spline w.curve.active_knot event.x event.y }
      else if eq_length_minus_one ops.length_unsigned w.curve.active_knot
          (ops.rs_spline_length w.curve.spline) = true then
        { w.curve with
          spline := ops.rs_spline_move w.curve.spline w.curve.active_knot event.x event.y }
      else
        let c0 : RSCurveWidget S :=
          if event.collides_prev knots w.curve.active_knot = true then
            { w.curve with
              spline := ops.rs_spline_delete w.curve.spline w.curve.active_knot,
              active_knot := w.curve.active_knot - 1 }
          else if event.collides_next knots w.curve.active_knot = true then
            { w.curve with spline := ops.rs_spline_delete w.curve.spline w.curve.active_knot }
          else w.curve
        { c0 with spline := ops.rs_spline_move c0.spline c0.active_knot event.x event.y }
    { w with curve := { c1 with delay_update := event.timeout_id } }
  else
    { w with curve := { w.curve with active_knot := event.nearest knots } }

/-- The timeout callback `delayed_update`. -/
def delayed_update {S F : Type} (ops : SplineOps S F) (w : World S F) : World S F :=
  rs_curve_changed ops { w with curve := { w.curve with delay_update := 0 } }

/-- A call of one of the routines above on the widget. -/
inductive Call (S F : Type) where
  | set_array (array : Option Nat) (array_length : Nat)
  | add_knot (x y : F)
  | move_knot (knot : Int) (x y : F)
  | set_knots (knots : Option (List (F × F)))
  | reset
  | load (filename : Option gstr)
  | button_press (event : GdkEventButton F)
  | button_release
  | motion_notify (event : GdkEventMotion S F)
  | delayed_update

/-- The state after one call. -/
def Call.run {S F : Type} (ops : SplineOps S F) (env : CurveEnv F) (w : World S F) :
    Call S F → Except CurveFault (World S F)
  | .set_array array n => .ok (rs_curve_widget_set_array w array n)
  | .add_knot x y => .ok (rs_curve_widget_add_knot ops w x y)
  | .move_knot knot x y => .ok (rs_curve_widget_move_knot ops w knot x y)
  | .set_knots knots => .ok (rs_curve_widget_set_knots ops w knots)
  | .reset => .ok (rs_curve_widget_reset ops w)
  | .load filename =>
    match rs_curve_widget_load ops env w filename with
    | .error e => .error e
    | .ok r => .ok r.1
  | .button_press event => .ok (rs_curve_widget_button_press ops w event)
  | .button_release => .ok (rs_curve_widget_button_release ops w)
  | .motion_notify event => .ok (rs_curve_widget_motion_notify ops w event)
  | .delayed_update => .ok (Rawstudio.delayed_update ops w)

/-- The state after a sequence of calls. -/
def run_calls {S F : Type} (ops : SplineOps S F) (env : CurveEnv F) :
    World S F → List (Call S F) → Except CurveFault (World S F)
  | w, [] => .ok w
  | w, c :: cs =>
    match c.run ops env w with
    | .error e => .error e
    | .ok w1 => run_calls ops env w1 cs

/-- The registered array is NULL exactly when the registered length is 0. -/
def array_invariant {S F : Type} (w : World S F) : Prop :=
  w.curve.array = none ↔ w.curve.array_length = 0

/-- The registered array holds the samples of the current spline: it is what
`rs_spline_sample(spline, array, array_length)` leaves in it. -/
def Sampled {S F : Type} (ops : SplineOps S F) (w : World S F) : Prop :=
  ∀ p, w.curve.array = some p → 0 < w.curve.array_length →
    ∃ old, w.heap p = ops.rs_spline_sample w.curve.spline old w.curve.array_length

/-- The registered array and its length as they are in `w` are those of `v`. -/
def same_array {S F : Type} (v w : World S F) : Prop :=
  w.curve.array = v.curve.array ∧ w.curve.array_length = v.curve.array_length

mutual
/-- The node or one of its descendants has the given name. -/
def has_element (nm : gstr) : XmlNode → Bool
  | .mk n _ cs => decide (n = nm) || has_element_list nm cs
/-- One of the nodes or of their descendants has the given name. -/
def has_element_list (nm : gstr) : List XmlNode → Bool
  | [] => false
  | c :: cs => has_element nm c || has_element_list nm cs
end

/-- The first two space-separated fields of the text of an `AnchorXY` node that has at
least two of them. -/
def anchor_fields (k : XmlNode) : Option (gstr × gstr) :=
  if k.name = "AnchorXY".toList then
    match k.text with
    | none => none
    | some val =>
      match g_strsplit val 4 with
      | v0 :: v1 :: _ => some (v0, v1)
      | _ => none
  else none

/-- The `AnchorXY` children with at least two space-separated fields, in document order. -/
def anchors (children : List XmlNode) : List (gstr × gstr) :=
  children.filterMap anchor_fields

/-- Every `AnchorXY` node among the children has text content. -/
def anchors_have_text (children : List XmlNode) : Prop :=
  ∀ k ∈ children, k.name = "AnchorXY".toList → k.text ≠ none

/-- What the chain `if ... else if ...` of `rs_curve_widget_button_press` executes:
`rs_curve_widget_add_knot(curve, x, y)`, `rs_spline_move(spline, n, x, y)`,
`rs_spline_delete(spline, n)` followed by `active_knot = -1`, the emission of
`right-click`, or nothing. -/
inductive PressBranch (F : Type) where
  | add (x y : F)
  | move (n : Int) (x y : F)
  | delete (n : Int)
  | right_click
  | nothing
  deriving DecidableEq

/-- The branch of the chain that a button press takes. -/
def button_press_branch {S F : Type} (ops : SplineOps S F) (w : World S F)
    (event : GdkEventButton F) : PressBranch F :=
  let button := if event.button = 1 ∧ event.shift = true then 2 else event.button
  if button = 1 ∧ w.curve.active_knot = -1 then
    .add event.x event.y
  else if button = 1 ∧ w.curve.active_knot ≥ 0 then
    .move w.curve.active_knot event.x event.y
  else if button = 2 ∧ w.curve.active_knot > 0 ∧
      lt_length_minus_one ops.length_unsigned w.curve.active_knot
        (ops.rs_spline_length w.curve.spline) = true then
    .delete w.curve.active_knot
  else if button = 3 then
    .right_click
  else .nothing

/-- The state after a branch of the chain. -/
def PressBranch.run {S F : Type} (ops : SplineOps S F) (w : World S F) :
    PressBranch F → World S F
  | .add x y => rs_curve_widget_add_knot ops w x y
  | .move n x y =>
    { w with curve := { w.curve with spline := ops.rs_spline_move w.curve.spline n x y } }
  | .delete n =>
    { w with curve := { w.curve with
        spline := ops.rs_spline_delete w.curve.spline n, active_knot := -1 } }
  | .right_click => { w with right_click := w.right_click + 1 }
  | .nothing => w

/-! ## Concrete inputs -/

/-- Metadata text of a photo taken at the start of the epoch. -/
def md_example : RSMetadata :=
  { date := "1970-01-01".toList, week_sunday := "00".toList, week_monday := "00".toList,
    year2 := "70".toList, year4 := "1970".toList, month := "01".toList,
    month_name := "January".toList, day := "01".toList, day_name := "Thursday".toList,
    time := "00:00:00".toList, iso := "100".toList, shutter_inverted := "125".toList,
    shutter_seconds := "0.008".toList, aperture := "2.8".toList, focallength := "70".toList }

/-- The part of a path behind its last `/`. -/
def basename_example (s : gstr) : gstr :=
  (s.reverse.takeWhile (fun c => c != '/')).reverse

/-- An environment in which the files `img_1` and `img_2` exist. -/
def env_example : Env :=
  { g_path_get_basename := basename_example,
    g_path_get_dirname := fun s => (s.reverse.dropWhile (fun c => c != '/')).reverse,
    g_file_test := fun s => s = "img_1".toList || s = "img_2".toList,
    rs_metadata_new := md_example,
    rs_metadata_new_from_file := fun _ => md_example }

/-- An array filled with the letter `x`. -/
def temp_example : Nat → Char := fun _ => 'x'

/-- Modelled from the spec: the spline of `rs-spline.c`, whose source is absent, reduced
to what the specification names ("knot insertion/deletion/move ... and sampling into a
fixed-size output array"). The spline is the list of its knots, a new knot is appended,
and sampling fills the array with the sum of the ordinates. It serves to run the widget
routines on concrete inputs. -/
def list_spline : SplineOps (List (Int × Int)) Int :=
  { rs_spline_new := [],
    rs_spline_add := fun s x y => s ++ [(x, y)],
    rs_spline_move := fun s n x y => if 0 ≤ n ∧ n < s.length then s.set n.toNat (x, y) else s,
    rs_spline_delete := fun s n => if 0 ≤ n then s.eraseIdx n.toNat else s,
    rs_spline_length := fun s => s.length,
    rs_spline_get_knots := fun s => s,
    rs_spline_sample := fun s _ n => List.replicate n (s.map Prod.snd).sum,
    length_unsigned := true }

/-- The document `<Curve><AnchorXY>0 0</AnchorXY><AnchorXY>7</AnchorXY>
<AnchorXY>4 9</AnchorXY></Curve>`. -/
def doc_curve : XmlDoc :=
  [.mk "Curve".toList none
    [.mk "AnchorXY".toList (some "0 0".toList) [],
     .mk "AnchorXY".toList (some "7".toList) [],
     .mk "AnchorXY".toList (some "4 9".toList) []]]

/-- The document `<Settings><Curve><AnchorXY>0 0</AnchorXY><AnchorXY>4 9</AnchorXY>
</Curve></Settings>`, in which the `Curve` element is not the root. -/
def doc_nested : XmlDoc :=
  [.mk "Settings".toList none
    [.mk "Curve".toList none
      [.mk "AnchorXY".toList (some "0 0".toList) [],
       .mk "AnchorXY".toList (some "4 9".toList) []]]]

/-- Decimal digits read as a number. -/
def atoi_example (s : gstr) : Int :=
  s.foldl (fun a c => 10 * a + ((c.toNat : Int) - 48)) 0

/-- An environment with the two files `curve.xml` (`doc_curve`) and `nested.xml`
(`doc_nested`), and a directory `photos`. -/
def curve_env_example : CurveEnv Int :=
  { g_file_test_regular := fun f => f = "curve.xml".toList || f = "nested.xml".toList
      || f = "broken.xml".toList,
    xmlParseFile := fun f =>
      if f = "curve.xml".toList then some doc_curve
      else if f = "nested.xml".toList then some doc_nested
      else none,
    rs_atof := atoi_example }

/-- A pointer motion without button that comes to rest on the knot with index 1. -/
def hover_example : GdkEventMotion (List (Int × Int)) Int :=
  { button1 := false, x := 10, y := 10, collides_prev := fun _ _ => false,
    collides_next := fun _ _ => false, nearest := fun _ => 1, timeout_id := 1 }

/-- A widget with the knots (0, 0) and (10, 10), an array of two samples registered at
address 0, and the pointer resting on the second knot: the state after the calls
`set_array`, `add_knot`, `add_knot` and a pointer motion without button. -/
def world_example : World (List (Int × Int)) Int :=
  rs_curve_widget_motion_notify list_spline
    (rs_curve_widget_add_knot list_spline
      (rs_curve_widget_add_knot list_spline
        (rs_curve_widget_set_array (rs_curve_widget_init list_spline (fun _ => [])) (some 0) 2)
        0 0)
      10 10)
    hover_example

/-- A widget with the knots (0, 0), (10, 10) and (20, 20) and the pointer resting on the
middle knot: `world_example` after one more `add_knot` and pointer motion. -/
def world_three : World (List (Int × Int)) Int :=
  rs_curve_widget_motion_notify list_spline
    (rs_curve_widget_add_knot list_spline world_example 20 20) hover_example

/-- A left button press with Shift held at the curve point (5, 7). -/
def shift_press_example : GdkEventButton Int :=
  { button := 1, shift := true, x := 5, y := 7 }

/-! ## Properties of `filename_parse` -/

theorem bind_ok {α β : Type} (a : α) (f : α → Except Fault β) :
    (Except.ok a : Except Fault α).bind f = f a := rfl

theorem bind_error {α β : Type} (e : Fault) (f : α → Except Fault β) :
    (Except.error e : Except Fault α).bind f = .error e := rfl

theorem bind_eq_ok {α β : Type} {x : Except Fault α} {f : α → Except Fault β} {b : β}
    (h : x.bind f = .ok b) : ∃ a, x = .ok a ∧ f a = .ok b := by
  cases x with
  | error e => cases h
  | ok a => exact ⟨a, rfl, h⟩

theorem scan_nil (md : RSMetadata) (b p : gstr) (snapshot : Int) (i : Nat) (st : PState) :
    scan md b p snapshot i [] st = .ok st := rfl

theorem scan_lit (md : RSMetadata) (b p : gstr) (snapshot : Int) (i : Nat)
    {c : Char} (hc : c ≠ '%') (rest : List Char) (st : PState) :
    scan md b p snapshot i (c :: rest) st = (put c st).bind (scan md b p snapshot i rest) := by
  rw [scan.eq_def]
  simp only [hc, if_false]

theorem scan_percent_end (md : RSMetadata) (b p : gstr) (snapshot : Int) (i : Nat) (st : PState) :
    scan md b p snapshot i ['%'] st =
      (token2 md b p snapshot i NUL st).bind fun _ => .error .overrun := by
  rw [scan.eq_def]
  simp only [if_true]

theorem scan_short (md : RSMetadata) (b p : gstr) (snapshot : Int) (i : Nat)
    {d : Char} (hd : long_token d = false) (rest : List Char) (st : PState) :
    scan md b p snapshot i ('%' :: d :: rest) st =
      (token2 md b p snapshot i d st).bind (scan md b p snapshot i rest) := by
  rw [scan.eq_def]
  simp only [if_true, hd, Bool.false_eq_true, if_false]

theorem scan_long (md : RSMetadata) (b p : gstr) (snapshot : Int) (i : Nat)
    {d : Char} (hd : long_token d = true) (e : Char) (rest : List Char) (st : PState) :
    scan md b p snapshot i ('%' :: d :: e :: rest) st =
      (token3 md i d e st).bind (scan md b p snapshot i rest) := by
  rw [scan.eq_def]
  simp only [if_true, hd]

theorem scan_long_end (md : RSMetadata) (b p : gstr) (snapshot : Int) (i : Nat)
    {d : Char} (hd : long_token d = true) (st : PState) :
    scan md b p snapshot i ['%', d] st =
      (token3 md i d NUL st).bind fun _ => .error .overrun := by
  rw [scan.eq_def]
  simp only [if_true, hd]

theorem put_counter {c : Char} {st st1 : PState} (h : put c st = .ok st1) :
    st1.counter = st.counter := by
  unfold put at h
  split at h
  · cases h; rfl
  · cases h

theorem strcpy_counter {s : gstr} {st st1 : PState} (h : strcpy s st = .ok st1) :
    st1.counter = st.counter := by
  unfold strcpy at h
  split at h
  · cases h; rfl
  · cases h

theorem emit_counter {s : gstr} {st st1 : PState} (h : emit s st = .ok st1) :
    st1.counter = st.counter := by
  unfold emit at h
  split at h
  · cases h
  · rename_i st2 h2
    cases h
    show st2.counter = st.counter
    exact strcpy_counter h2

theorem setting_counter {snapshot : Int} {st st1 : PState} (h : setting snapshot st = .ok st1) :
    st1.counter = st.counter := by
  unfold setting at h
  split at h
  · cases h
  · rename_i st2 h2
    cases h
    show st2.counter = st.counter
    split_ifs at h2
    · exact strcpy_counter h2
    · exact strcpy_counter h2
    · exact strcpy_counter h2
    · cases h2; rfl

theorem copy2_counter {d : Char} {st st1 : PState} (h : copy2 d st = .ok st1) :
    st1.counter = st.counter := by
  unfold copy2 at h
  obtain ⟨a, ha, hb⟩ := bind_eq_ok h
  rw [put_counter hb, put_counter ha]

theorem copy3_counter {d e : Char} {st st1 : PState} (h : copy3 d e st = .ok st1) :
    st1.counter = st.counter := by
  unfold copy3 at h
  obtain ⟨a, ha, hb⟩ := bind_eq_ok h
  obtain ⟨a1, ha1, hb1⟩ := bind_eq_ok ha
  rw [put_counter hb, put_counter hb1, put_counter ha1]

theorem token2_counter {md : RSMetadata} {b p : gstr} {snapshot : Int} {i : Nat} {d : Char}
    {st st1 : PState} (h : token2 md b p snapshot i d st = .ok st1) :
    st1.counter = (st.counter || decide (d = 'c')) := by
  unfold token2 at h
  split_ifs at h with h1 h2 h3 h4 h5 h6 h7 h8
  · subst h1; simpa using emit_counter h
  · subst h2; simpa using emit_counter h
  · subst h3; simpa using setting_counter h
  · subst h4; simpa using emit_counter h
  · subst h5; simpa using emit_counter h
  · subst h6; simpa using emit_counter h
  · subst h7; simpa using emit_counter h
  · subst h8; simpa using emit_counter h
  · simpa [h2] using copy2_counter h

theorem token3_counter {md : RSMetadata} {i : Nat} {d e : Char}
    {st st1 : PState} (h : token3 md i d e st = .ok st1) :
    st1.counter = (st.counter || (is_digit19 d && decide (e = 'c'))) := by
  unfold token3 at h
  split_ifs at h with h1 h2 h3
  · simpa [h1, h2] using emit_counter h
  · simpa [h1, h2] using copy3_counter h
  · simpa [h1] using emit_counter h
  · simpa [h1] using emit_counter h

theorem counter_token_lit {c : Char} (hc : c ≠ '%') (rest : List Char) :
    counter_token (c :: rest) = counter_token rest := by
  rw [counter_token.eq_def]
  simp only [hc, if_false]

theorem counter_token_short {d : Char} (hd : long_token d = false) (rest : List Char) :
    counter_token ('%' :: d :: rest) = (decide (d = 'c') || counter_token rest) := by
  rw [counter_token.eq_def]
  simp only [if_true, hd, Bool.false_eq_true, if_false]

theorem counter_token_long {d : Char} (hd : long_token d = true) (e : Char) (rest : List Char) :
    counter_token ('%' :: d :: e :: rest) =
      ((is_digit19 d && decide (e = 'c')) || counter_token rest) := by
  rw [counter_token.eq_def]
  simp only [if_true, hd]

theorem scan_counter_aux (md : RSMetadata) (b p : gstr) (snapshot : Int) (i : Nat) :
    ∀ (n : Nat) (tpl : List Char) (st st1 : PState), tpl.length ≤ n →
      scan md b p snapshot i tpl st = .ok st1 →
      st1.counter = (st.counter || counter_token tpl) := by
  intro n
  induction n with
  | zero =>
    intro tpl st st1 hn h
    have : tpl = [] := List.eq_nil_of_length_eq_zero (Nat.le_zero.mp hn)
    subst this
    rw [scan_nil] at h
    cases h
    simp [counter_token]
  | succ n ih =>
    intro tpl st st1 hn h
    match tpl, hn, h with
    | [], _, h =>
      rw [scan_nil] at h
      cases h
      simp [counter_token]
    | c :: rest, hn, h =>
      by_cases hc : c = '%'
      · subst hc
        match rest, hn, h with
        | [], _, h =>
          rw [scan_percent_end] at h
          obtain ⟨a, _, hb⟩ := bind_eq_ok h
          cases hb
        | d :: rest2, hn, h =>
          cases hd : long_token d with
          | false =>
            rw [scan_short _ _ _ _ _ hd] at h
            obtain ⟨a, ha, hb⟩ := bind_eq_ok h
            have hlen : rest2.length ≤ n := by simp at hn; omega
            rw [ih rest2 a st1 hlen hb, token2_counter ha, counter_token_short hd,
              Bool.or_assoc]
          | true =>
            match rest2, hn, h with
            | [], _, h =>
              rw [scan_long_end _ _ _ _ _ hd] at h
              obtain ⟨a, _, hb⟩ := bind_eq_ok h
              cases hb
            | e :: rest3, hn, h =>
              rw [scan_long _ _ _ _ _ hd] at h
              obtain ⟨a, ha, hb⟩ := bind_eq_ok h
              have hlen : rest3.length ≤ n := by simp at hn; omega
              rw [ih rest3 a st1 hlen hb, token3_counter ha, counter_token_long hd,
                Bool.or_assoc]
      · rw [scan_lit _ _ _ _ _ hc] at h
        obtain ⟨a, ha, hb⟩ := bind_eq_ok h
        have hlen : rest.length ≤ n := by simp at hn; omega
        rw [ih rest a st1 hlen hb, put_counter ha, counter_token_lit hc]

theorem scan_counter {md : RSMetadata} {b p : gstr} {snapshot : Int} {i : Nat}
    {tpl : List Char} {st st1 : PState} (h : scan md b p snapshot i tpl st = .ok st1) :
    st1.counter = (st.counter || counter_token tpl) :=
  scan_counter_aux md b p snapshot i tpl.length tpl st st1 (Nat.le_refl _) h

theorem pass_counter {md : RSMetadata} {b p : gstr} {snapshot : Int} {tpl : gstr} {i : Nat}
    {t : Nat → Char} {c : Bool} {r : (Nat → Char) × Bool × gstr}
    (h : pass md b p snapshot tpl i t c = .ok r) : r.2.1 = (c || counter_token tpl) := by
  unfold pass at h
  split at h
  · cases h
  · rename_i st hst
    split_ifs at h
    cases h
    exact scan_counter hst

theorem pass_state_succ (md : RSMetadata) (b p : gstr) (snapshot : Int) (tpl : gstr)
    (temp0 : Nat → Char) (k : Nat) {t : Nat → Char} {c : Bool}
    (hs : pass_state md b p snapshot tpl temp0 k = .ok (t, c))
    {r : (Nat → Char) × Bool × gstr} (hp : pass md b p snapshot tpl (k + 1) t c = .ok r) :
    pass_state md b p snapshot tpl temp0 (k + 1) = .ok (r.1, r.2.1) := by
  rw [pass_state, hs, bind_ok]
  simp only [hp, bind_ok]

theorem pass_output_of_state (md : RSMetadata) (b p : gstr) (snapshot : Int) (tpl : gstr)
    (temp0 : Nat → Char) (i : Nat) {t : Nat → Char} {c : Bool}
    (hs : pass_state md b p snapshot tpl temp0 (i - 1) = .ok (t, c)) :
    pass_output md b p snapshot tpl temp0 i =
      (pass md b p snapshot tpl i t c).bind fun r => .ok r.2.2 := by
  rw [pass_output, hs, bind_ok]

/-- The loop with a counter token in the template: started at counter value `i` on the
state left by the earlier passes, it returns the output of the pass for `istar`, the first
counter value from `i` on whose output does not name an existing file. -/
theorem parse_loop_counter (E : Env) (md : RSMetadata) (b p : gstr) (snapshot : Int)
    (tpl : gstr) (temp0 : Nat → Char) (hct : counter_token tpl = true) (istar : Nat)
    (hgint : istar < 2147483647)
    (hfree : ¬ ∃ o, pass_output md b p snapshot tpl temp0 istar = .ok o ∧ E.g_file_test o = true) :
    ∀ (k i fuel : Nat) (t : Nat → Char) (c : Bool), 1 ≤ i → i + k = istar → k + 1 ≤ fuel →
      pass_state md b p snapshot tpl temp0 (i - 1) = .ok (t, c) →
      (∀ j, i ≤ j → j < istar →
        ∃ o, pass_output md b p snapshot tpl temp0 j = .ok o ∧ E.g_file_test o = true) →
      parse_loop E md b p snapshot tpl fuel i t c = pass_output md b p snapshot tpl temp0 istar := by
  intro k
  induction k with
  | zero =>
    intro i fuel t c hi hik hfuel hs _
    have hii : i = istar := by omega
    subst hii
    obtain ⟨f, rfl⟩ : ∃ f, fuel = f + 1 := ⟨fuel - 1, by omega⟩
    rw [pass_output_of_state md b p snapshot tpl temp0 i hs] at hfree ⊢
    rw [parse_loop]
    cases hp : pass md b p snapshot tpl i t c with
    | error e => rfl
    | ok r =>
      obtain ⟨t1, c1, o⟩ := r
      rw [hp, bind_ok] at hfree
      have hno : E.g_file_test o ≠ true := fun hx => hfree ⟨o, rfl, hx⟩
      have hfe : (if c1 = false then false else E.g_file_test o) = false := by
        cases c1
        · rfl
        · simpa using hno
      simp only [bind_ok, hfe, hgint, Bool.false_eq_true, if_false, if_true]
  | succ k ih =>
    intro i fuel t c hi hik hfuel hs hbelow
    obtain ⟨f, rfl⟩ : ∃ f, fuel = f + 1 := ⟨fuel - 1, by omega⟩
    obtain ⟨o1, ho1, hex⟩ := hbelow i (Nat.le_refl _) (by omega)
    have hgi : i < 2147483647 := by omega
    rw [pass_output_of_state md b p snapshot tpl temp0 i hs] at ho1
    rw [parse_loop]
    cases hp : pass md b p snapshot tpl i t c with
    | error e => rw [hp] at ho1; cases ho1
    | ok r =>
      obtain ⟨t1, c1, o⟩ := r
      rw [hp, bind_ok] at ho1
      cases ho1
      have hc1 : c1 = true := by
        have := pass_counter hp
        simpa [hct] using this
      subst hc1
      have hs1 : pass_state md b p snapshot tpl temp0 (i + 1 - 1) = .ok (t1, true) := by
        have hi1 : i - 1 + 1 = i := by omega
        have hp1 : pass md b p snapshot tpl (i - 1 + 1) t c = .ok (t1, true, o) := by
          rw [hi1]; exact hp
        have := pass_state_succ md b p snapshot tpl temp0 (i - 1) hs hp1
        rw [hi1] at this
        simpa using this
      have hrec := ih (i + 1) f t1 true (by omega) (by omega) (by omega) hs1
        (fun j hj1 hj2 => hbelow j (by omega) hj2)
      simp only [hex, hgi, Bool.true_eq_false, if_false, if_true]
      exact hrec

/-- The loop with a counter token in the template, started at counter value `i`, when
every counter value from `i` to 2^31 - 2 gives the name of an existing file and the pass
for 2^31 - 1 is defined: that pass is followed by `i++`, which is `Fault.counter`. -/
theorem parse_loop_counter_range (E : Env) (md : RSMetadata) (b p : gstr) (snapshot : Int)
    (tpl : gstr) (temp0 : Nat → Char) (hct : counter_token tpl = true)
    (hlast : ∃ o, pass_output md b p snapshot tpl temp0 2147483647 = .ok o) :
    ∀ (k i fuel : Nat) (t : Nat → Char) (c : Bool), 1 ≤ i → i + k = 2147483647 →
      k + 1 ≤ fuel →
      pass_state md b p snapshot tpl temp0 (i - 1) = .ok (t, c) →
      (∀ j, i ≤ j → j < 2147483647 →
        ∃ o, pass_output md b p snapshot tpl temp0 j = .ok o ∧ E.g_file_test o = true) →
      parse_loop E md b p snapshot tpl fuel i t c = .error .counter := by
  intro k
  induction k with
  | zero =>
    intro i fuel t c hi hik hfuel hs _
    have hii : i = 2147483647 := by omega
    subst hii
    obtain ⟨f, rfl⟩ : ∃ f, fuel = f + 1 := ⟨fuel - 1, by omega⟩
    obtain ⟨o1, ho1⟩ := hlast
    rw [pass_output_of_state md b p snapshot tpl temp0 2147483647 hs] at ho1
    rw [parse_loop]
    cases hp : pass md b p snapshot tpl 2147483647 t c with
    | error e => rw [hp] at ho1; cases ho1
    | ok r =>
      obtain ⟨t1, c1, o⟩ := r
      have hg : ¬ (2147483647 : Nat) < 2147483647 := by decide
      simp only [hg, if_false]
  | succ k ih =>
    intro i fuel t c hi hik hfuel hs hbelow
    obtain ⟨f, rfl⟩ : ∃ f, fuel = f + 1 := ⟨fuel - 1, by omega⟩
    obtain ⟨o1, ho1, hex⟩ := hbelow i (Nat.le_refl _) (by omega)
    have hgi : i < 2147483647 := by omega
    rw [pass_output_of_state md b p snapshot tpl temp0 i hs] at ho1
    rw [parse_loop]
    cases hp : pass md b p snapshot tpl i t c with
    | error e => rw [hp] at ho1; cases ho1
    | ok r =>
      obtain ⟨t1, c1, o⟩ := r
      rw [hp, bind_ok] at ho1
      cases ho1
      have hc1 : c1 = true := by
        have := pass_counter hp
        simpa [hct] using this
      subst hc1
      have hs1 : pass_state md b p snapshot tpl temp0 (i + 1 - 1) = .ok (t1, true) := by
        have hi1 : i - 1 + 1 = i := by omega
        have hp1 : pass md b p snapshot tpl (i - 1 + 1) t c = .ok (t1, true, o) := by
          rw [hi1]; exact hp
        have := pass_state_succ md b p snapshot tpl temp0 (i - 1) hs hp1
        rw [hi1] at this
        simpa using this
      have hrec := ih (i + 1) f t1 true (by omega) (by omega) (by omega) hs1
        (fun j hj1 hj2 => hbelow j (by omega) hj2)
      simp only [hex, hgi, Bool.true_eq_false, if_false, if_true]
      exact hrec

/-- The loop without a counter token in the template returns the output of the first
pass, whatever files exist. -/
theorem parse_loop_plain (E : Env) (md : RSMetadata) (b p : gstr) (snapshot : Int)
    (tpl : gstr) (temp0 : Nat → Char) (hct : counter_token tpl = false) (fuel : Nat)
    (hfuel : 1 ≤ fuel) :
    parse_loop E md b p snapshot tpl fuel 1 temp0 false =
      pass_output md b p snapshot tpl temp0 1 := by
  obtain ⟨f, rfl⟩ : ∃ f, fuel = f + 1 := ⟨fuel - 1, by omega⟩
  have hs : pass_state md b p snapshot tpl temp0 (1 - 1) = .ok (temp0, false) := rfl
  rw [pass_output_of_state md b p snapshot tpl temp0 1 hs, parse_loop]
  cases hp : pass md b p snapshot tpl 1 temp0 false with
  | error e => rfl
  | ok r =>
    obtain ⟨t1, c1, o⟩ := r
    have hc1 : c1 = false := by
      have := pass_counter hp
      simpa [hct] using this
    subst hc1
    have hg : (1 : Nat) < 2147483647 := by decide
    simp only [bind_ok, hg, if_true, Bool.false_eq_true, if_false]

theorem filename_parse_eq_loop (E : Env) (fuel : Nat) (temp0 : Nat → Char) (tpl fname : gstr)
    (snapshot : Int) (lm : Bool) :
    filename_parse E fuel temp0 (some tpl) (some fname) snapshot lm =
      (parse_loop E
        (if lm then E.rs_metadata_new_from_file (some fname) else E.rs_metadata_new)
        (cut_extension (E.g_path_get_basename fname)) (E.g_path_get_dirname fname)
        snapshot tpl fuel 1 temp0 false).map some := by
  unfold filename_parse
  simp only
  split <;> rename_i h <;> rw [h] <;> rfl

theorem put_eq (c : Char) {st : PState} (h : st.m < TEMP_SIZE) :
    put c st = .ok { st with temp := poke st.temp st.m c, m := st.m + 1 } := by
  unfold put
  rw [if_pos h]

theorem copy2_eq (d : Char) {st : PState} (h : st.m + 1 < TEMP_SIZE) :
    copy2 d st =
      .ok { st with temp := poke (poke st.temp st.m '%') (st.m + 1) d, m := st.m + 2 } := by
  unfold copy2
  rw [put_eq '%' (by omega), bind_ok, put_eq d (by simpa using h)]

theorem holds_nil (t : Nat → Char) : Holds t [] := by
  intro k c h
  simp at h

theorem holds_snoc {t : Nat → Char} {s : List Char} (h : Holds t s) (c : Char) :
    Holds (poke t s.length c) (s ++ [c]) := by
  intro k x hk
  unfold poke
  by_cases hks : k = s.length
  · subst hks
    simp at hk
    simp [hk]
  · have hlt : k < s.length := by
      have h1 : k < (s ++ [c]).length := by
        rcases Nat.lt_or_ge k (s ++ [c]).length with h2 | h2
        · exact h2
        · rw [List.getElem?_eq_none h2] at hk; cases hk
      simp at h1
      omega
    rw [List.getElem?_append_left hlt] at hk
    simp [hks, h k x hk]

theorem holds_poke_beyond {t : Nat → Char} {s : List Char} (h : Holds t s) (c : Char) :
    Holds (poke t s.length c) s := by
  intro k x hk
  have hlt : k < s.length := by
    rcases Nat.lt_or_ge k s.length with h2 | h2
    · exact h2
    · rw [List.getElem?_eq_none h2] at hk; cases hk
  unfold poke
  rw [if_neg (by omega)]
  exact h k x hk

theorem token_char_false {d : Char} (h : token_char d = false)
    (md : RSMetadata) (b p : gstr) (snapshot : Int) (i : Nat) (st : PState) :
    long_token d = false ∧ token2 md b p snapshot i d st = copy2 d st := by
  simp only [token_char, Bool.or_eq_false_iff, decide_eq_false_iff_not] at h
  obtain ⟨⟨⟨⟨⟨⟨⟨⟨⟨⟨h0, h1⟩, h2⟩, h3⟩, h4⟩, h5⟩, h6⟩, h7⟩, h8⟩, h9⟩, h10⟩ := h
  constructor
  · simp [long_token, h0, h7, h8]
  · unfold token2
    simp only [h1, h2, h3, h4, h5, h6, h9, h10, if_false]

theorem plain_cons (c : Char) (rest : List Char) :
    plain (c :: rest) =
      ((c != '%' || (match rest with
                    | [] => false
                    | d :: _ => !token_char d)) && plain rest) := rfl

/-- Scanning a plain stretch of template copies it to the array unchanged. -/
theorem scan_plain_aux (md : RSMetadata) (b p : gstr) (snapshot : Int) (i : Nat) :
    ∀ (n : Nat) (pre acc : List Char) (st : PState), pre.length ≤ n → plain pre = true →
      Holds st.temp acc → st.m = acc.length → acc.length + pre.length ≤ TEMP_SIZE →
      ∃ st1, (∀ rest, scan md b p snapshot i (pre ++ rest) st = scan md b p snapshot i rest st1) ∧
        Holds st1.temp (acc ++ pre) ∧ st1.m = acc.length + pre.length ∧
        st1.counter = st.counter := by
  intro n
  induction n with
  | zero =>
    intro pre acc st hn _ hh hm _
    have : pre = [] := List.eq_nil_of_length_eq_zero (Nat.le_zero.mp hn)
    subst this
    exact ⟨st, fun rest => rfl, by simpa using hh, by simpa using hm, rfl⟩
  | succ n ih =>
    intro pre acc st hn hpl hh hm hfit
    match pre, hn, hpl, hfit with
    | [], _, _, _ => exact ⟨st, fun rest => rfl, by simpa using hh, by simpa using hm, rfl⟩
    | c :: r, hn, hpl, hfit =>
      rw [plain_cons, Bool.and_eq_true] at hpl
      obtain ⟨hhead, hr⟩ := hpl
      by_cases hc : c = '%'
      · subst hc
        match r, hn, hhead, hr, hfit with
        | [], _, hhead, _, _ => simp at hhead
        | d :: r2, hn, hhead, hr, hfit =>
          have hd : token_char d = false := by simpa using hhead
          have hr2 : plain r2 = true := by
            rw [plain_cons, Bool.and_eq_true] at hr
            exact hr.2
          simp only [List.length_cons] at hfit hn
          have hm1 : st.m + 1 < TEMP_SIZE := by omega
          obtain ⟨hlong, htok⟩ := token_char_false hd md b p snapshot i st
          have hh2 : Holds (poke (poke st.temp st.m '%') (st.m + 1) d) (acc ++ ['%'] ++ [d]) := by
            have h1 := holds_snoc hh '%'
            have h2 := holds_snoc h1 d
            rw [hm]
            simpa using h2
          obtain ⟨st1, hs1, hh1, hm1', hc1⟩ := ih r2 (acc ++ ['%'] ++ [d])
            { st with temp := poke (poke st.temp st.m '%') (st.m + 1) d, m := st.m + 2 }
            (by omega) hr2 hh2 (by simp; omega) (by simp; omega)
          refine ⟨st1, ?_, ?_, ?_, ?_⟩
          · intro rest
            show scan md b p snapshot i ('%' :: d :: (r2 ++ rest)) st = _
            rw [scan_short _ _ _ _ _ hlong, htok, copy2_eq d hm1, bind_ok]
            exact hs1 rest
          · simpa using hh1
          · rw [hm1']; simp; omega
          · rw [hc1]
      · simp only [List.length_cons] at hfit hn
        have hm1 : st.m < TEMP_SIZE := by omega
        have hh2 : Holds (poke st.temp st.m c) (acc ++ [c]) := by
          rw [hm]; exact holds_snoc hh c
        obtain ⟨st1, hs1, hh1, hm1', hc1⟩ := ih r (acc ++ [c])
          { st with temp := poke st.temp st.m c, m := st.m + 1 }
          (by omega) hr hh2 (by simp; omega) (by simp; omega)
        refine ⟨st1, ?_, ?_, ?_, ?_⟩
        · intro rest
          show scan md b p snapshot i (c :: (r ++ rest)) st = _
          rw [scan_lit _ _ _ _ _ hc, put_eq c hm1, bind_ok]
          exact hs1 rest
        · simpa using hh1
        · rw [hm1']; simp; omega
        · rw [hc1]

theorem read_cstr_holds (t : Nat → Char) (s : List Char) (hh : Holds t s)
    (hz : t s.length = NUL) (hnul : ∀ c ∈ s, c ≠ NUL) :
    ∀ (fuel k : Nat), k ≤ s.length → s.length - k < fuel → read_cstr t fuel k = s.drop k := by
  intro fuel
  induction fuel with
  | zero => intro k _ h; omega
  | succ f ih =>
    intro k hk hf
    rw [read_cstr]
    by_cases hks : k = s.length
    · subst hks
      rw [if_pos hz]
      simp
    · have hlt : k < s.length := by omega
      have hget : t k = s[k] := hh k s[k] (List.getElem?_eq_getElem hlt)
      have hne : t k ≠ NUL := by rw [hget]; exact hnul _ (List.getElem_mem hlt)
      rw [if_neg hne, ih (k + 1) (by omega) (by omega), hget]
      exact (List.drop_eq_getElem_cons hlt).symm

theorem g_strdup_holds {t : Nat → Char} {s : List Char} (hh : Holds t s)
    (hz : t s.length = NUL) (hnul : ∀ c ∈ s, c ≠ NUL) (hlen : s.length < TEMP_SIZE) :
    g_strdup t = s := by
  unfold g_strdup
  rw [read_cstr_holds t s hh hz hnul TEMP_SIZE 0 (Nat.zero_le _) (by omega)]
  rfl

/-- C5. A template shorter than 1024 characters in which every `%` is followed by a
character that starts no token (in particular a template without `%`) is returned
unchanged, character for character. -/
theorem filename_parse_plain (E : Env) (fuel : Nat) (temp0 : Nat → Char) (tpl fname : gstr)
    (snapshot : Int) (lm : Bool) (hfuel : 1 ≤ fuel) (hlen : tpl.length < 1024)
    (hnul : ∀ c ∈ tpl, c ≠ NUL) (hplain : plain tpl = true) :
    filename_parse E fuel temp0 (some tpl) (some fname) snapshot lm = .ok (some tpl) := by
  rw [filename_parse_eq_loop]
  obtain ⟨f, rfl⟩ : ∃ f, fuel = f + 1 := ⟨fuel - 1, by omega⟩
  obtain ⟨st1, hs, hh, hm, hc⟩ := scan_plain_aux
    (if lm then E.rs_metadata_new_from_file (some fname) else E.rs_metadata_new)
    (cut_extension (E.g_path_get_basename fname)) (E.g_path_get_dirname fname) snapshot 1
    tpl.length tpl [] { temp := temp0, m := 0, counter := false } (Nat.le_refl _) hplain
    (holds_nil _) rfl (by simp [TEMP_SIZE]; omega)
  have hscan := hs []
  rw [List.append_nil, scan_nil] at hscan
  simp only [List.nil_append, List.length_nil, Nat.zero_add] at hh hm hc
  have hm1 : st1.m < TEMP_SIZE := by rw [hm]; simpa [TEMP_SIZE] using hlen
  have hout : g_strdup (poke st1.temp st1.m NUL) = tpl := by
    apply g_strdup_holds
    · rw [hm]; exact holds_poke_beyond hh NUL
    · rw [hm]; simp [poke]
    · exact hnul
    · rw [← hm]; exact hm1
  have hg : (1 : Nat) < 2147483647 := by decide
  rw [parse_loop, pass, hscan]
  simp only [hm1, hg, if_true, hc, hout]
  rfl

theorem holds_pokes {s : List Char} :
    ∀ {t : Nat → Char} {acc : List Char}, Holds t acc →
      Holds (pokes t acc.length s) (acc ++ s) := by
  induction s with
  | nil => intro t acc h; simpa [pokes] using h
  | cons c s ih =>
    intro t acc h
    have h1 := ih (holds_snoc h c)
    simpa [pokes] using h1

theorem emit_eq (s : gstr) {st : PState} (h : st.m + s.length < TEMP_SIZE) :
    emit s st =
      .ok { st with temp := poke (pokes st.temp st.m s) (st.m + s.length) NUL,
                    m := st.m + s.length } := by
  unfold emit strcpy
  rw [if_pos h]

theorem emit_holds (s : gstr) (st : PState) {acc : List Char} (hh : Holds st.temp acc)
    (hm : st.m = acc.length) (hfit : acc.length + s.length < TEMP_SIZE) :
    ∃ st1, emit s st = .ok st1 ∧ Holds st1.temp (acc ++ s) ∧
      st1.m = acc.length + s.length ∧ st1.counter = st.counter := by
  refine ⟨_, emit_eq s (by omega), ?_, ?_, rfl⟩
  · have h1 : Holds (pokes st.temp acc.length s) (acc ++ s) := holds_pokes hh
    have h2 := holds_poke_beyond h1 NUL
    simpa [hm] using h2
  · simp [hm]

/-- A pass whose scan leaves the text `out` in the array returns `out`. -/
theorem pass_of_scan {md : RSMetadata} {b p : gstr} {snapshot : Int} {tpl : gstr} {i : Nat}
    {t : Nat → Char} {c : Bool} {st1 : PState} {out : gstr}
    (hscan : scan md b p snapshot i tpl { temp := t, m := 0, counter := c } = .ok st1)
    (hh : Holds st1.temp out) (hm : st1.m = out.length) (hnul : ∀ x ∈ out, x ≠ NUL)
    (hlen : out.length < TEMP_SIZE) :
    pass md b p snapshot tpl i t c = .ok (poke st1.temp st1.m NUL, st1.counter, out) := by
  have hout : g_strdup (poke st1.temp st1.m NUL) = out := by
    apply g_strdup_holds
    · rw [hm]; exact holds_poke_beyond hh NUL
    · rw [hm]; simp [poke]
    · exact hnul
    · exact hlen
  rw [pass, hscan]
  simp only [hm, hlen, if_true]
  rw [← hm, hout]

/-- A token between two plain stretches: when the scan, at the token, stores the text `X`
with `strcpy(&temp[m], X); m += strlen(X)` and goes on behind the token, the pass over
`pre ++ tok ++ post` returns `pre ++ X ++ post`. -/
theorem pass_context {md : RSMetadata} {b p : gstr} {snapshot : Int} (i : Nat)
    (tok : List Char) (X : gstr) (flag : Bool → Bool)
    (hstep : ∀ rest st, scan md b p snapshot i (tok ++ rest) st =
      (emit X { st with counter := flag st.counter }).bind (scan md b p snapshot i rest))
    (pre post : gstr) (hpre : plain pre = true) (hpost : plain post = true)
    (hnul : ∀ x ∈ pre ++ X ++ post, x ≠ NUL) (hlen : (pre ++ X ++ post).length < 1024)
    (t : Nat → Char) (c : Bool) :
    ∃ t1, pass md b p snapshot (pre ++ tok ++ post) i t c =
      .ok (t1, flag c, pre ++ X ++ post) := by
  simp only [List.length_append] at hlen
  obtain ⟨st1, hs1, hh1, hm1, hc1⟩ := scan_plain_aux md b p snapshot i pre.length pre []
    { temp := t, m := 0, counter := c } (Nat.le_refl _) hpre (holds_nil _) rfl
    (by simp [TEMP_SIZE]; omega)
  simp only [List.nil_append, List.length_nil, Nat.zero_add] at hh1 hm1 hc1
  obtain ⟨st2, hs2, hh2, hm2, hc2⟩ := emit_holds X
    { st1 with counter := flag st1.counter } hh1 hm1 (by simp [TEMP_SIZE]; omega)
  obtain ⟨st3, hs3, hh3, hm3, hc3⟩ := scan_plain_aux md b p snapshot i post.length post
    (pre ++ X) st2 (Nat.le_refl _) hpost hh2 (by simpa using hm2)
    (by simp [TEMP_SIZE]; omega)
  have hscan : scan md b p snapshot i (pre ++ tok ++ post)
      { temp := t, m := 0, counter := c } = .ok st3 := by
    rw [List.append_assoc, hs1, hstep, hs2, bind_ok]
    have := hs3 []
    rw [List.append_nil, scan_nil] at this
    exact this
  have hfl : st3.counter = flag c := by
    rw [hc3, hc2]
    show flag st1.counter = flag c
    rw [hc1]
  refine ⟨poke st3.temp st3.m NUL, ?_⟩
  rw [← hfl]
  exact pass_of_scan hscan hh3 (by rw [hm3]; simp only [List.length_append]) hnul
    (by simp only [List.length_append, TEMP_SIZE]; omega)

theorem isStore_id : IsStore (fun t => t) :=
  ⟨fun _ => none, fun _ _ => rfl⟩

theorem isStore_poke (k : Nat) (c : Char) : IsStore (fun t => poke t k c) := by
  refine ⟨fun j => if j = k then some c else none, fun t j => ?_⟩
  show (if j = k then c else t j) = (if j = k then some c else none).getD (t j)
  split_ifs <;> rfl

theorem isStore_comp {f g : (Nat → Char) → Nat → Char} (hf : IsStore f) (hg : IsStore g) :
    IsStore (fun t => g (f t)) := by
  obtain ⟨df, hdf⟩ := hf
  obtain ⟨dg, hdg⟩ := hg
  refine ⟨fun j => match dg j with
    | some x => some x
    | none => df j, fun t j => ?_⟩
  show g (f t) j = (match dg j with
    | some x => some x
    | none => df j).getD (t j)
  rw [hdg, hdf]
  cases dg j <;> rfl

theorem isStore_pokes (s : List Char) : ∀ k, IsStore (fun t => pokes t k s) := by
  induction s with
  | nil => intro k; exact isStore_id
  | cons c s ih => intro k; exact isStore_comp (isStore_poke k c) (ih (k + 1))

theorem isStore_idem {f : (Nat → Char) → Nat → Char} (hf : IsStore f) (t : Nat → Char) :
    f (f t) = f t := by
  obtain ⟨d, hd⟩ := hf
  funext j
  rw [hd (f t) j, hd t j]
  cases d j <;> rfl

theorem blind_put (c : Char) : Blind (put c) := by
  intro m k
  by_cases h : m < TEMP_SIZE
  · exact Or.inr ⟨fun t => poke t m c, m + 1, k, isStore_poke m c, fun t => put_eq c h⟩
  · refine Or.inl ⟨.overflow, fun t => ?_⟩
    unfold put
    rw [if_neg h]

theorem blind_strcpy (s : gstr) : Blind (strcpy s) := by
  intro m k
  by_cases h : m + s.length < TEMP_SIZE
  · refine Or.inr ⟨fun t => poke (pokes t m s) (m + s.length) NUL, m, k,
      isStore_comp (isStore_pokes s m) (isStore_poke _ _), fun t => ?_⟩
    unfold strcpy
    rw [if_pos h]
  · refine Or.inl ⟨.overflow, fun t => ?_⟩
    unfold strcpy
    rw [if_neg h]

theorem blind_emit (s : gstr) : Blind (emit s) := by
  intro m k
  by_cases h : m + s.length < TEMP_SIZE
  · exact Or.inr ⟨fun t => poke (pokes t m s) (m + s.length) NUL, m + s.length, k,
      isStore_comp (isStore_pokes s m) (isStore_poke _ _), fun t => emit_eq s h⟩
  · refine Or.inl ⟨.overflow, fun t => ?_⟩
    unfold emit strcpy
    rw [if_neg h]

theorem blind_setting (snapshot : Int) : Blind (setting snapshot) := by
  intro m k
  have key : ∀ s : gstr, (∃ e, ∀ t, (match strcpy s { temp := t, m := m, counter := k } with
        | .error e => Except.error e
        | .ok st1 => Except.ok { st1 with m := st1.m + 1 }) = .error e) ∨
      (∃ f m1 c1, IsStore f ∧ ∀ t, (match strcpy s { temp := t, m := m, counter := k } with
        | .error e => Except.error e
        | .ok st1 => Except.ok { st1 with m := st1.m + 1 }) =
          .ok { temp := f t, m := m1, counter := c1 }) := by
    intro s
    rcases blind_strcpy s m k with ⟨e, he⟩ | ⟨f, m1, c1, hf, he⟩
    · exact Or.inl ⟨e, fun t => by rw [he t]⟩
    · exact Or.inr ⟨f, m1 + 1, c1, hf, fun t => by rw [he t]⟩
  unfold setting
  by_cases h0 : snapshot = 0
  · simp only [h0, if_true]; exact key _
  · by_cases h1 : snapshot = 1
    · simp only [h0, h1, if_false, if_true]; exact key _
    · by_cases h2 : snapshot = 2
      · simp only [h0, h1, h2, if_false, if_true]; exact key _
      · simp only [h0, h1, h2, if_false]
        exact Or.inr ⟨fun t => t, m + 1, k, isStore_id, fun t => rfl⟩

theorem blind_bind {A B : PState → Except Fault PState} (hA : Blind A) (hB : Blind B) :
    Blind (fun st => (A st).bind B) := by
  intro m k
  rcases hA m k with ⟨e, he⟩ | ⟨f, m1, c1, hf, he⟩
  · exact Or.inl ⟨e, fun t => by simp only [he t, bind_error]⟩
  · rcases hB m1 c1 with ⟨e, he2⟩ | ⟨g, m2, c2, hg, he2⟩
    · exact Or.inl ⟨e, fun t => by simp only [he t, bind_ok, he2 (f t)]⟩
    · exact Or.inr ⟨fun t => g (f t), m2, c2, isStore_comp hf hg,
        fun t => by simp only [he t, bind_ok, he2 (f t)]⟩

theorem blind_counter {A : PState → Except Fault PState} (hA : Blind A) :
    Blind (fun st => A { st with counter := true }) :=
  fun m _ => hA m true

theorem blind_fail {A : PState → Except Fault PState} (hA : Blind A) :
    Blind (fun st => (A st).bind fun _ => .error .overrun) := by
  intro m k
  rcases hA m k with ⟨e, he⟩ | ⟨f, m1, c1, _, he⟩
  · exact Or.inl ⟨e, fun t => by simp only [he t, bind_error]⟩
  · exact Or.inl ⟨.overrun, fun t => by simp only [he t, bind_ok]⟩

theorem blind_copy2 (d : Char) : Blind (copy2 d) :=
  blind_bind (blind_put '%') (blind_put d)

theorem blind_copy3 (d e : Char) : Blind (copy3 d e) :=
  blind_bind (blind_bind (blind_put '%') (blind_put d)) (blind_put e)

theorem blind_token2 (md : RSMetadata) (b p : gstr) (snapshot : Int) (i : Nat) (d : Char) :
    Blind (token2 md b p snapshot i d) := by
  unfold token2
  split_ifs
  · exact blind_emit _
  · exact blind_counter (blind_emit _)
  · exact blind_setting _
  · exact blind_emit _
  · exact blind_emit _
  · exact blind_emit _
  · exact blind_emit _
  · exact blind_emit _
  · exact blind_copy2 d

theorem blind_token3 (md : RSMetadata) (i : Nat) (d e : Char) : Blind (token3 md i d e) := by
  unfold token3
  split_ifs
  · exact blind_counter (blind_emit _)
  · exact blind_copy3 d e
  · exact blind_emit _
  · exact blind_emit _

theorem blind_scan_aux (md : RSMetadata) (b p : gstr) (snapshot : Int) (i : Nat) :
    ∀ (n : Nat) (tpl : List Char), tpl.length ≤ n → Blind (scan md b p snapshot i tpl) := by
  intro n
  induction n with
  | zero =>
    intro tpl hn
    have : tpl = [] := List.eq_nil_of_length_eq_zero (Nat.le_zero.mp hn)
    subst this
    exact fun m k => Or.inr ⟨fun t => t, m, k, isStore_id, fun t => rfl⟩
  | succ n ih =>
    intro tpl hn
    match tpl, hn with
    | [], _ => exact fun m k => Or.inr ⟨fun t => t, m, k, isStore_id, fun t => rfl⟩
    | c :: rest, hn =>
      by_cases hc : c = '%'
      · subst hc
        match rest, hn with
        | [], _ =>
          have e : scan md b p snapshot i ['%'] = fun st =>
              (token2 md b p snapshot i NUL st).bind fun _ => .error .overrun :=
            funext (scan_percent_end md b p snapshot i)
          rw [e]
          exact blind_fail (blind_token2 md b p snapshot i NUL)
        | d :: rest2, hn =>
          cases hd : long_token d with
          | false =>
            have e : scan md b p snapshot i ('%' :: d :: rest2) = fun st =>
                (token2 md b p snapshot i d st).bind (scan md b p snapshot i rest2) :=
              funext (scan_short md b p snapshot i hd rest2)
            rw [e]
            exact blind_bind (blind_token2 md b p snapshot i d)
              (ih rest2 (by simp at hn; omega))
          | true =>
            match rest2, hn with
            | [], _ =>
              have e : scan md b p snapshot i ['%', d] = fun st =>
                  (token3 md i d NUL st).bind fun _ => .error .overrun :=
                funext (scan_long_end md b p snapshot i hd)
              rw [e]
              exact blind_fail (blind_token3 md i d NUL)
            | e1 :: rest3, hn =>
              have e : scan md b p snapshot i ('%' :: d :: e1 :: rest3) = fun st =>
                  (token3 md i d e1 st).bind (scan md b p snapshot i rest3) :=
                funext (scan_long md b p snapshot i hd e1 rest3)
              rw [e]
              exact blind_bind (blind_token3 md i d e1) (ih rest3 (by simp at hn; omega))
      · have e : scan md b p snapshot i (c :: rest) = fun st =>
            (put c st).bind (scan md b p snapshot i rest) :=
          funext (scan_lit md b p snapshot i hc rest)
        rw [e]
        exact blind_bind (blind_put c) (ih rest (by simp at hn; omega))

theorem blind_scan (md : RSMetadata) (b p : gstr) (snapshot : Int) (i : Nat) (tpl : List Char) :
    Blind (scan md b p snapshot i tpl) :=
  blind_scan_aux md b p snapshot i tpl.length tpl (Nat.le_refl _)

theorem token2_indep (md : RSMetadata) (b p : gstr) (snapshot : Int) (i j : Nat) {d : Char}
    (hd : d ≠ 'c') (st : PState) :
    token2 md b p snapshot i d st = token2 md b p snapshot j d st := by
  unfold token2
  simp only [hd, if_false]

theorem token3_indep (md : RSMetadata) (i j : Nat) {d e : Char}
    (h : (is_digit19 d && decide (e = 'c')) = false) (st : PState) :
    token3 md i d e st = token3 md j d e st := by
  unfold token3
  by_cases hdig : is_digit19 d = true
  · have he : e ≠ 'c' := by
      intro hx
      rw [hdig, hx] at h
      simp at h
    simp only [hdig, if_true, he, if_false]
  · simp only [hdig, Bool.false_eq_true, if_false]

/-- Without a counter token the scan does not depend on the counter value. -/
theorem scan_indep_aux (md : RSMetadata) (b p : gstr) (snapshot : Int) (i j : Nat) :
    ∀ (n : Nat) (tpl : List Char) (st : PState), tpl.length ≤ n → counter_token tpl = false →
      scan md b p snapshot i tpl st = scan md b p snapshot j tpl st := by
  have hNUL : NUL ≠ 'c' := by decide
  intro n
  induction n with
  | zero =>
    intro tpl st hn _
    have : tpl = [] := List.eq_nil_of_length_eq_zero (Nat.le_zero.mp hn)
    subst this
    rfl
  | succ n ih =>
    intro tpl st hn hct
    match tpl, hn, hct with
    | [], _, _ => rfl
    | c :: rest, hn, hct =>
      by_cases hc : c = '%'
      · subst hc
        match rest, hn, hct with
        | [], _, _ =>
          rw [scan_percent_end, scan_percent_end, token2_indep md b p snapshot i j hNUL]
        | d :: rest2, hn, hct =>
          cases hd : long_token d with
          | false =>
            rw [counter_token_short hd, Bool.or_eq_false_iff] at hct
            have hdc : d ≠ 'c' := by simpa using hct.1
            rw [scan_short _ _ _ _ _ hd, scan_short _ _ _ _ _ hd,
              token2_indep md b p snapshot i j hdc]
            congr 1
            funext st1
            exact ih rest2 st1 (by simp at hn; omega) hct.2
          | true =>
            match rest2, hn, hct with
            | [], _, _ =>
              rw [scan_long_end _ _ _ _ _ hd, scan_long_end _ _ _ _ _ hd,
                token3_indep md i j (by simp [hNUL])]
            | e1 :: rest3, hn, hct =>
              rw [counter_token_long hd, Bool.or_eq_false_iff] at hct
              rw [scan_long _ _ _ _ _ hd, scan_long _ _ _ _ _ hd,
                token3_indep md i j hct.1]
              congr 1
              funext st1
              exact ih rest3 st1 (by simp at hn; omega) hct.2
      · rw [counter_token_lit hc] at hct
        rw [scan_lit _ _ _ _ _ hc, scan_lit _ _ _ _ _ hc]
        congr 1
        funext st1
        exact ih rest st1 (by simp at hn; omega) hct

/-- Without a counter token a pass run on the array that a pass has left gives the same
array, flag and output again, whatever the counter value. -/
theorem pass_fixed (md : RSMetadata) (b p : gstr) (snapshot : Int) (tpl : gstr)
    (hct : counter_token tpl = false) (i j : Nat) (t t1 : Nat → Char) (c c1 : Bool) (o : gstr)
    (h : pass md b p snapshot tpl i t c = .ok (t1, c1, o)) :
    pass md b p snapshot tpl j t1 c1 = .ok (t1, c1, o) := by
  rcases blind_scan md b p snapshot i tpl 0 c with ⟨e, he⟩ | ⟨f, m1, k1, hf, he⟩
  · rw [pass, he t] at h
    cases h
  · have hk : k1 = c := by
      have := scan_counter (he t)
      simpa [hct] using this
    subst hk
    rw [pass, he t] at h
    simp only at h
    split_ifs at h with hm
    cases h
    have hg : IsStore (fun t => poke (f t) m1 NUL) := isStore_comp hf (isStore_poke m1 NUL)
    have hfix : poke (f (poke (f t) m1 NUL)) m1 NUL = poke (f t) m1 NUL := isStore_idem hg t
    rw [pass, ← scan_indep_aux md b p snapshot i j tpl.length tpl _ (Nat.le_refl _) hct,
      he (poke (f t) m1 NUL)]
    simp only [hm, if_true, hfix]

theorem pass_state_fixed (md : RSMetadata) (b p : gstr) (snapshot : Int) (tpl : gstr)
    (temp0 : Nat → Char) (hct : counter_token tpl = false) (t1 : Nat → Char) (c1 : Bool)
    (o : gstr) (h : pass md b p snapshot tpl 1 temp0 false = .ok (t1, c1, o)) :
    ∀ k, pass_state md b p snapshot tpl temp0 (k + 1) = .ok (t1, c1) := by
  intro k
  induction k with
  | zero =>
    have hs : pass_state md b p snapshot tpl temp0 0 = .ok (temp0, false) := rfl
    exact pass_state_succ md b p snapshot tpl temp0 0 hs h
  | succ k ih =>
    exact pass_state_succ md b p snapshot tpl temp0 (k + 1) ih
      (pass_fixed md b p snapshot tpl hct 1 (k + 1 + 1) temp0 t1 false c1 o h)

/-- Without a counter token every pass gives the output of the first. -/
theorem pass_output_fixed (md : RSMetadata) (b p : gstr) (snapshot : Int) (tpl : gstr)
    (temp0 : Nat → Char) (hct : counter_token tpl = false) (o : gstr)
    (h : pass_output md b p snapshot tpl temp0 1 = .ok o) (i : Nat) (hi : 1 ≤ i) :
    pass_output md b p snapshot tpl temp0 i = .ok o := by
  have hs : pass_state md b p snapshot tpl temp0 (1 - 1) = .ok (temp0, false) := rfl
  rw [pass_output_of_state md b p snapshot tpl temp0 1 hs] at h
  obtain ⟨r, hr, ho⟩ := bind_eq_ok h
  obtain ⟨t1, c1, o1⟩ := r
  cases ho
  obtain ⟨k, rfl⟩ : ∃ k, i = k + 1 := ⟨i - 1, by omega⟩
  cases k with
  | zero => rw [pass_output_of_state md b p snapshot tpl temp0 1 hs, hr]; rfl
  | succ k =>
    have hst := pass_state_fixed md b p snapshot tpl temp0 hct t1 c1 o1 hr k
    rw [pass_output_of_state md b p snapshot tpl temp0 (k + 1 + 1) hst,
      pass_fixed md b p snapshot tpl hct 1 (k + 1 + 1) temp0 t1 false c1 o1 hr]
    rfl

/-- A template with a counter token has `%c`, or `%Nc` with a digit `N` from 1 to 9,
among its characters. -/
theorem counter_token_occurs_aux :
    ∀ (n : Nat) (tpl : List Char), tpl.length ≤ n → counter_token tpl = true →
      ∃ pre post, tpl = pre ++ '%' :: 'c' :: post ∨
        ∃ d, is_digit19 d = true ∧ tpl = pre ++ '%' :: d :: 'c' :: post := by
  intro n
  induction n with
  | zero =>
    intro tpl hn h
    have : tpl = [] := List.eq_nil_of_length_eq_zero (Nat.le_zero.mp hn)
    subst this
    simp [counter_token] at h
  | succ n ih =>
    intro tpl hn h
    have lift : ∀ (front rest : List Char), tpl = front ++ rest → rest.length ≤ n →
        counter_token rest = true →
        ∃ pre post, tpl = pre ++ '%' :: 'c' :: post ∨
          ∃ d, is_digit19 d = true ∧ tpl = pre ++ '%' :: d :: 'c' :: post := by
      intro front rest hsplit hlen hrest
      obtain ⟨pre, post, hp⟩ := ih rest hlen hrest
      refine ⟨front ++ pre, post, ?_⟩
      rcases hp with hp | ⟨d, hd, hp⟩
      · exact Or.inl (by rw [hsplit, hp, List.append_assoc])
      · exact Or.inr ⟨d, hd, by rw [hsplit, hp, List.append_assoc]⟩
    match tpl, hn, h, lift with
    | [], _, h, _ => simp [counter_token] at h
    | c :: rest, hn, h, lift =>
      by_cases hc : c = '%'
      · subst hc
        match rest, hn, h, lift with
        | [], _, h, _ => simp [counter_token] at h
        | d :: rest2, hn, h, lift =>
          cases hd : long_token d with
          | false =>
            rw [counter_token_short hd, Bool.or_eq_true] at h
            rcases h with h | h
            · have hdc : d = 'c' := by simpa using h
              subst hdc
              exact ⟨[], rest2, Or.inl rfl⟩
            · exact lift ['%', d] rest2 rfl (by simp at hn; omega) h
          | true =>
            match rest2, hn, h, lift with
            | [], _, h, _ =>
              rw [counter_token.eq_def] at h
              simp [hd] at h
            | e :: rest3, hn, h, lift =>
              rw [counter_token_long hd, Bool.or_eq_true] at h
              rcases h with h | h
              · rw [Bool.and_eq_true] at h
                have hec : e = 'c' := by simpa using h.2
                subst hec
                exact ⟨[], rest3, Or.inr ⟨d, h.1, rfl⟩⟩
              · exact lift ['%', d, e] rest3 rfl (by simp at hn; omega) h
      · rw [counter_token_lit hc] at h
        exact lift [c] rest rfl (by simp at hn; omega) h

theorem counter_token_occurs {tpl : List Char} (h : counter_token tpl = true) :
    ∃ pre post, tpl = pre ++ '%' :: 'c' :: post ∨
      ∃ d, is_digit19 d = true ∧ tpl = pre ++ '%' :: d :: 'c' :: post :=
  counter_token_occurs_aux tpl.length tpl (Nat.le_refl _) h

/-- C1. With a non-NULL template and file name, `filename_parse` returns the expansion of
the template with counter value `istar`, where `istar = 1` when the template has no counter
token (whether or not a file of that name exists), and otherwise `istar` is the least
counter value from 1 on whose expansion does not name an existing file, every expansion
with a smaller counter value naming an existing file. The counter is a `gint` that the
code increments once more after the pass for `istar`, so `istar` is below the largest
`gint`, 2^31 - 1. `fuel` is any number of passes not below `istar`. The second case needs
no assumption on the template: without a counter token all expansions are the same, so the
least such `istar` can only be 1. -/
theorem filename_parse_counter_least (E : Env) (temp0 : Nat → Char) (tpl fname : gstr)
    (snapshot : Int) (lm : Bool) (istar fuel : Nat) (hfuel : istar ≤ fuel)
    (h : (counter_token tpl = false ∧ istar = 1) ∨
      (1 ≤ istar ∧ istar < 2147483647 ∧
        ¬ names_existing E temp0 tpl fname snapshot lm istar ∧
        ∀ i, 1 ≤ i → i < istar → names_existing E temp0 tpl fname snapshot lm i)) :
    filename_parse E fuel temp0 (some tpl) (some fname) snapshot lm =
      (expansion E temp0 tpl fname snapshot lm istar).map some := by
  rw [filename_parse_eq_loop]
  congr 1
  rcases h with ⟨hct, h1⟩ | ⟨h1, hgint, hfree, hbelow⟩
  · subst h1
    exact parse_loop_plain E _ _ _ snapshot tpl temp0 hct fuel hfuel
  · cases hct : counter_token tpl with
    | true =>
      exact parse_loop_counter E _ _ _ snapshot tpl temp0 hct istar hgint hfree (istar - 1) 1 fuel
        temp0 false (Nat.le_refl _) (by omega) (by omega) rfl
        (fun j hj1 hj2 => hbelow j hj1 hj2)
    | false =>
      by_cases hone : istar = 1
      · subst hone
        exact parse_loop_plain E _ _ _ snapshot tpl temp0 hct fuel hfuel
      · obtain ⟨o, ho, hx⟩ := hbelow 1 (Nat.le_refl _) (by omega)
        exact absurd ⟨o, pass_output_fixed _ _ _ snapshot tpl temp0 hct o ho istar h1, hx⟩ hfree

/-- The counter value 2^31 - 1 is never the one returned: when the template has a counter
token, the expansions with the counter values 1 to 2^31 - 2 all name existing files and
the one with 2^31 - 1 is defined, the run ends in the increment of the largest `gint`,
whether or not that last expansion names an existing file. -/
theorem filename_parse_counter_range (E : Env) (temp0 : Nat → Char) (tpl fname : gstr)
    (snapshot : Int) (lm : Bool) (fuel : Nat) (hfuel : 2147483647 ≤ fuel)
    (hct : counter_token tpl = true)
    (hlast : ∃ o, expansion E temp0 tpl fname snapshot lm 2147483647 = .ok o)
    (hbelow : ∀ i, 1 ≤ i → i < 2147483647 → names_existing E temp0 tpl fname snapshot lm i) :
    filename_parse E fuel temp0 (some tpl) (some fname) snapshot lm = .error .counter := by
  rw [filename_parse_eq_loop]
  have hl := parse_loop_counter_range E _ _ _ snapshot tpl temp0 hct hlast 2147483646 1 fuel
    temp0 false (Nat.le_refl _) (by omega) (by omega) rfl (fun j hj1 hj2 => hbelow j hj1 hj2)
  rw [hl]
  rfl

theorem scan_token_f (md : RSMetadata) (b p : gstr) (snapshot : Int) (i : Nat)
    (rest : List Char) (st : PState) :
    scan md b p snapshot i ('%' :: 'f' :: rest) st =
      (emit b st).bind (scan md b p snapshot i rest) := by
  rw [scan_short _ _ _ _ _ (by decide)]
  rfl

theorem scan_token_c (md : RSMetadata) (b p : gstr) (snapshot : Int) (i : Nat)
    (rest : List Char) (st : PState) :
    scan md b p snapshot i ('%' :: 'c' :: rest) st =
      (emit (Nat.toDigits 10 i) { st with counter := true }).bind
        (scan md b p snapshot i rest) := by
  rw [scan_short _ _ _ _ _ (by decide)]
  rfl

theorem scan_token_s (md : RSMetadata) (b p : gstr) (snapshot : Int) (i : Nat)
    (rest : List Char) (st : PState) :
    scan md b p snapshot i ('%' :: 's' :: rest) st =
      (setting snapshot st).bind (scan md b p snapshot i rest) := by
  rw [scan_short _ _ _ _ _ (by decide)]
  rfl

theorem scan_token_Nc (md : RSMetadata) (b p : gstr) (snapshot : Int) (i N : Nat)
    (hN1 : 1 ≤ N) (hN9 : N ≤ 9) (rest : List Char) (st : PState) :
    scan md b p snapshot i ('%' :: Char.ofNat (48 + N) :: 'c' :: rest) st =
      (emit (List.replicate (N - (Nat.toDigits 10 i).length) '0' ++ Nat.toDigits 10 i)
        { st with counter := true }).bind (scan md b p snapshot i rest) := by
  interval_cases N
  all_goals
    rw [scan_long _ _ _ _ _ (by decide)]
    rfl

theorem digitChar_ne_NUL : ∀ k, k < 10 → Nat.digitChar k ≠ NUL := by
  decide

theorem toDigitsCore_ne_NUL (fuel : Nat) :
    ∀ (n : Nat) (ds : List Char), (∀ c ∈ ds, c ≠ NUL) →
      ∀ c ∈ Nat.toDigitsCore 10 fuel n ds, c ≠ NUL := by
  induction fuel with
  | zero => intro n ds h c hc; exact h c (by simpa [Nat.toDigitsCore] using hc)
  | succ f ih =>
    intro n ds h c hc
    have hds : ∀ x ∈ Nat.digitChar (n % 10) :: ds, x ≠ NUL := by
      intro x hx
      rcases List.mem_cons.mp hx with h1 | h1
      · rw [h1]; exact digitChar_ne_NUL _ (Nat.mod_lt _ (by decide))
      · exact h x h1
    rw [Nat.toDigitsCore] at hc
    split_ifs at hc
    · exact hds c hc
    · exact ih _ _ hds c hc

theorem toDigits_ne_NUL (i : Nat) : ∀ c ∈ Nat.toDigits 10 i, c ≠ NUL := by
  unfold Nat.toDigits
  exact toDigitsCore_ne_NUL _ _ _ (by simp)

theorem padded_ne_NUL (N i : Nat) :
    ∀ c ∈ List.replicate (N - (Nat.toDigits 10 i).length) '0' ++ Nat.toDigits 10 i, c ≠ NUL := by
  intro c hc
  rcases List.mem_append.mp hc with h | h
  · rw [(List.mem_replicate.mp h).2]; decide
  · exact toDigits_ne_NUL i c h

theorem ne_NUL_append3 {pre X post : gstr} (hpre : ∀ c ∈ pre, c ≠ NUL)
    (hX : ∀ c ∈ X, c ≠ NUL) (hpost : ∀ c ∈ post, c ≠ NUL) :
    ∀ c ∈ pre ++ X ++ post, c ≠ NUL := by
  intro c hc
  rcases List.mem_append.mp hc with h | h
  · rcases List.mem_append.mp h with h1 | h1
    · exact hpre c h1
    · exact hX c h1
  · exact hpost c h

/-- C2. Counter formatting, for every counter value `i` and every digit `N` from 1 to 9.
At a `%c` the scan stores the decimal digits of `i`, unpadded, and goes on two characters
further; at a `%Nc` it stores the decimal digits of `i` with as many leading zeros as are
needed to reach `N` characters (none are cut off) and goes on three characters
further. Between two plain stretches of template the pass therefore returns the
stretches with that text in between. -/
theorem counter_token_format (md : RSMetadata) (b p : gstr) (snapshot : Int) (i N : Nat)
    (hN1 : 1 ≤ N) (hN9 : N ≤ 9) :
    (∀ rest st, scan md b p snapshot i ('%' :: 'c' :: rest) st =
      (emit (Nat.toDigits 10 i) { st with counter := true }).bind
        (scan md b p snapshot i rest)) ∧
    (∀ rest st, scan md b p snapshot i ('%' :: Char.ofNat (48 + N) :: 'c' :: rest) st =
      (emit (List.replicate (N - (Nat.toDigits 10 i).length) '0' ++ Nat.toDigits 10 i)
        { st with counter := true }).bind (scan md b p snapshot i rest)) ∧
    (∀ (pre post : gstr) (t : Nat → Char) (c : Bool), plain pre = true → plain post = true →
      (∀ x ∈ pre, x ≠ NUL) → (∀ x ∈ post, x ≠ NUL) →
      (pre ++ Nat.toDigits 10 i ++ post).length < 1024 →
      ∃ t1, pass md b p snapshot (pre ++ ['%', 'c'] ++ post) i t c =
        .ok (t1, true, pre ++ Nat.toDigits 10 i ++ post)) ∧
    (∀ (pre post : gstr) (t : Nat → Char) (c : Bool), plain pre = true → plain post = true →
      (∀ x ∈ pre, x ≠ NUL) → (∀ x ∈ post, x ≠ NUL) →
      (pre ++ (List.replicate (N - (Nat.toDigits 10 i).length) '0' ++ Nat.toDigits 10 i)
        ++ post).length < 1024 →
      ∃ t1, pass md b p snapshot (pre ++ ['%', Char.ofNat (48 + N), 'c'] ++ post) i t c =
        .ok (t1, true,
          pre ++ (List.replicate (N - (Nat.toDigits 10 i).length) '0' ++ Nat.toDigits 10 i)
            ++ post)) ∧
    (List.replicate (N - (Nat.toDigits 10 i).length) '0' ++ Nat.toDigits 10 i).length =
      max N (Nat.toDigits 10 i).length := by
  refine ⟨scan_token_c md b p snapshot i, scan_token_Nc md b p snapshot i N hN1 hN9, ?_, ?_, ?_⟩
  · intro pre post t c hpre hpost hn1 hn2 hlen
    exact pass_context i ['%', 'c'] (Nat.toDigits 10 i) (fun _ => true)
      (fun rest st => scan_token_c md b p snapshot i rest st) pre post hpre hpost
      (ne_NUL_append3 hn1 (toDigits_ne_NUL i) hn2) hlen t c
  · intro pre post t c hpre hpost hn1 hn2 hlen
    exact pass_context i ['%', Char.ofNat (48 + N), 'c'] _ (fun _ => true)
      (fun rest st => scan_token_Nc md b p snapshot i N hN1 hN9 rest st) pre post hpre hpost
      (ne_NUL_append3 hn1 (padded_ne_NUL N i) hn2) hlen t c
  · rw [List.length_append, List.length_replicate]
    omega

theorem g_strrstr_dot_none {s : List Char} (h : '.' ∉ s) : g_strrstr_dot s = none := by
  induction s with
  | nil => rfl
  | cons c s ih =>
    have hc : c ≠ '.' := fun hx => h (by rw [hx]; exact List.mem_cons_self _ _)
    have hs : '.' ∉ s := fun hx => h (List.mem_cons_of_mem _ hx)
    rw [g_strrstr_dot, ih hs]
    simp only [hc, if_false]

theorem g_strrstr_dot_last (x y : List Char) (h : '.' ∉ y) :
    g_strrstr_dot (x ++ '.' :: y) = some x.length := by
  induction x with
  | nil =>
    show g_strrstr_dot ('.' :: y) = some 0
    rw [g_strrstr_dot, g_strrstr_dot_none h]
    simp only [if_true]
  | cons c x ih =>
    show g_strrstr_dot (c :: (x ++ '.' :: y)) = some (x.length + 1)
    rw [g_strrstr_dot, ih]

theorem cut_extension_no_dot {s : List Char} (h : '.' ∉ s) : cut_extension s = s := by
  rw [cut_extension, g_strrstr_dot_none h]

theorem cut_extension_last_dot (x y : List Char) (h : '.' ∉ y) :
    cut_extension (x ++ '.' :: y) = x := by
  rw [cut_extension, g_strrstr_dot_last x y h]
  simp

theorem parse_loop_of_pass (E : Env) {md : RSMetadata} {b p : gstr} {snapshot : Int}
    {tpl : gstr} {temp0 t1 : Nat → Char} {out : gstr} (f : Nat)
    (h : pass md b p snapshot tpl 1 temp0 false = .ok (t1, false, out)) :
    parse_loop E md b p snapshot tpl (f + 1) 1 temp0 false = .ok out := by
  have hg : (1 : Nat) < 2147483647 := by decide
  rw [parse_loop, h]
  simp only [hg, if_true, Bool.false_eq_true, if_false]

/-- C3. The token `%f` is the original file name without its extension: at a `%f` the scan
stores the base name of `filename` (as `g_path_get_basename` gives it) cut at the last dot
of that base name, or the whole base name when it has no dot, and goes on two characters
further; between two plain stretches of template `filename_parse` returns the stretches
with that text in between. Nothing of `filename` but its base name enters the text. -/
theorem filename_token_basename (E : Env) (temp0 : Nat → Char) (fname : gstr)
    (snapshot : Int) (lm : Bool) :
    (∀ (md : RSMetadata) (b p : gstr) (i : Nat) (rest : List Char) (st : PState),
      scan md b p snapshot i ('%' :: 'f' :: rest) st =
        (emit b st).bind (scan md b p snapshot i rest)) ∧
    (∀ (fuel : Nat) (pre post : gstr), 1 ≤ fuel → plain pre = true → plain post = true →
      (∀ x ∈ pre ++ cut_extension (E.g_path_get_basename fname) ++ post, x ≠ NUL) →
      (pre ++ cut_extension (E.g_path_get_basename fname) ++ post).length < 1024 →
      filename_parse E fuel temp0 (some (pre ++ ['%', 'f'] ++ post)) (some fname) snapshot lm =
        .ok (some (pre ++ cut_extension (E.g_path_get_basename fname) ++ post))) ∧
    (∀ base : gstr, '.' ∉ base → cut_extension base = base) ∧
    (∀ x y : gstr, '.' ∉ y → cut_extension (x ++ '.' :: y) = x) := by
  refine ⟨fun md b p i rest st => scan_token_f md b p snapshot i rest st, ?_,
    fun base h => cut_extension_no_dot h, cut_extension_last_dot⟩
  intro fuel pre post hfuel hpre hpost hnul hlen
  obtain ⟨f, rfl⟩ : ∃ f, fuel = f + 1 := ⟨fuel - 1, by omega⟩
  rw [filename_parse_eq_loop]
  obtain ⟨t1, ht1⟩ := pass_context 1 ['%', 'f']
    (cut_extension (E.g_path_get_basename fname)) (fun c => c)
    (fun rest st => scan_token_f
      (if lm then E.rs_metadata_new_from_file (some fname) else E.rs_metadata_new)
      (cut_extension (E.g_path_get_basename fname)) (E.g_path_get_dirname fname)
      snapshot 1 rest st) pre post hpre hpost hnul hlen temp0 false
  rw [parse_loop_of_pass E f ht1]
  rfl

theorem read_cstr_succ (t : Nat → Char) (fuel k : Nat) :
    read_cstr t (fuel + 1) k = if t k = NUL then [] else t k :: read_cstr t fuel (k + 1) := rfl

/-- C4 (the code at a snapshot other than 0, 1, 2). The `%s` branch stores nothing and
still advances `m`, so the character taken into the output is whatever the uninitialised
array held at that index: for the template `%s` the result is the one character
`temp0 0`, or the empty string when that character is NUL. It is not one of `A`, `B`, `C`
unless the array happened to hold it. -/
theorem setting_token_unknown_snapshot (E : Env) (fuel : Nat) (temp0 : Nat → Char)
    (fname : gstr) (snapshot : Int) (lm : Bool) (hfuel : 1 ≤ fuel)
    (h0 : snapshot ≠ 0) (h1 : snapshot ≠ 1) (h2 : snapshot ≠ 2) :
    filename_parse E fuel temp0 (some ['%', 's']) (some fname) snapshot lm =
      .ok (some (if temp0 0 = NUL then [] else [temp0 0])) := by
  obtain ⟨f, rfl⟩ : ∃ f, fuel = f + 1 := ⟨fuel - 1, by omega⟩
  rw [filename_parse_eq_loop]
  have hset : ∀ st : PState, setting snapshot st = .ok { st with m := st.m + 1 } := by
    intro st
    unfold setting
    simp only [h0, h1, h2, if_false]
  have hpass : ∀ md b p, pass md b p snapshot ['%', 's'] 1 temp0 false =
      .ok (poke temp0 1 NUL, false, if temp0 0 = NUL then [] else [temp0 0]) := by
    intro md b p
    rw [pass, scan_token_s, hset, bind_ok, scan_nil]
    have h1024 : (0 + 1 : Nat) < TEMP_SIZE := by decide
    simp only [h1024, if_true]
    have hg : g_strdup (poke temp0 (0 + 1) NUL) = if temp0 0 = NUL then [] else [temp0 0] := by
      have e0 : poke temp0 (0 + 1) NUL 0 = temp0 0 := by simp [poke]
      have e1 : poke temp0 (0 + 1) NUL (0 + 1) = NUL := by simp [poke]
      show read_cstr _ (1022 + 1 + 1) 0 = _
      rw [read_cstr_succ, read_cstr_succ, e0, e1]
      simp
    rw [hg]
  rw [parse_loop_of_pass E f (hpass _ _ _)]
  rfl

/-- The `%s` branch at a snapshot 0, 1 or 2: between two plain stretches of template the
pass returns the stretches with the one letter `A`, `B` or `C` in between. -/
theorem setting_token_known_snapshot (md : RSMetadata) (b p : gstr) (snapshot : Int)
    (i : Nat) (hs : snapshot = 0 ∨ snapshot = 1 ∨ snapshot = 2)
    (pre post : gstr) (hpre : plain pre = true) (hpost : plain post = true)
    (hn1 : ∀ x ∈ pre, x ≠ NUL) (hn2 : ∀ x ∈ post, x ≠ NUL)
    (hlen : pre.length + 1 + post.length < 1024) (t : Nat → Char) (c : Bool) :
    ∃ t1, pass md b p snapshot (pre ++ ['%', 's'] ++ post) i t c =
      .ok (t1, c, pre ++ [if snapshot = 0 then 'A' else if snapshot = 1 then 'B' else 'C']
        ++ post) := by
  have hstep : ∀ rest st, scan md b p snapshot i (['%', 's'] ++ rest) st =
      (emit [if snapshot = 0 then 'A' else if snapshot = 1 then 'B' else 'C']
        { st with counter := (fun x => x) st.counter }).bind (scan md b p snapshot i rest) := by
    intro rest st
    show scan md b p snapshot i ('%' :: 's' :: rest) st = _
    rw [scan_token_s]
    rcases hs with h | h | h <;> subst h <;> rfl
  refine pass_context i ['%', 's'] _ (fun x => x) hstep pre post hpre hpost
    (ne_NUL_append3 hn1 ?_ hn2) (by simp only [List.length_append, List.length_singleton]; exact hlen) t c
  intro x hx
  rw [List.mem_singleton] at hx
  rw [hx]
  split_ifs <;> decide

/-- C6. `filename_parse` returns NULL when `filename` is NULL or the template is NULL,
whatever `snapshot` and `load_metadata` are (no pass of the loop is needed for that), and
a result it returns in any other case is not NULL. -/
theorem filename_parse_null (E : Env) (fuel : Nat) (temp0 : Nat → Char)
    (tmpl filename : Option gstr) (snapshot : Int) (lm : Bool) :
    (filename = none ∨ tmpl = none →
      filename_parse E fuel temp0 tmpl filename snapshot lm = .ok none) ∧
    (∀ r, filename ≠ none → tmpl ≠ none →
      filename_parse E fuel temp0 tmpl filename snapshot lm = .ok r → r ≠ none) := by
  constructor
  · intro h
    cases filename with
    | none => rfl
    | some fn =>
      cases tmpl with
      | none => rfl
      | some tpl => rcases h with h | h <;> cases h
  · intro r hf ht h
    cases filename with
    | none => exact absurd rfl hf
    | some fn =>
      cases tmpl with
      | none => exact absurd rfl ht
      | some tpl =>
        rw [filename_parse_eq_loop] at h
        cases hl : parse_loop E
            (if lm then E.rs_metadata_new_from_file (some fn) else E.rs_metadata_new)
            (cut_extension (E.g_path_get_basename fn)) (E.g_path_get_dirname fn)
            snapshot tpl fuel 1 temp0 false with
        | error e => rw [hl] at h; cases h
        | ok o =>
          rw [hl] at h
          cases h
          intro hx
          cases hx

/-! ## Properties of the curve widget -/

theorem rs_curve_changed_curve {S F : Type} (ops : SplineOps S F) (w : World S F) :
    (rs_curve_changed ops w).curve = w.curve := by
  unfold rs_curve_changed rs_curve_widget_sample
  dsimp only
  split_ifs
  · split <;> rfl
  · rfl

theorem rs_curve_changed_sampled {S F : Type} (ops : SplineOps S F) (w : World S F) :
    Sampled ops (rs_curve_changed ops w) := by
  intro p hp hlen
  rw [rs_curve_changed_curve] at hp hlen ⊢
  refine ⟨w.heap p, ?_⟩
  unfold rs_curve_changed rs_curve_widget_sample
  dsimp only
  rw [if_pos hlen, hp]
  simp

theorem same_array_refl {S F : Type} (w : World S F) : same_array w w := ⟨rfl, rfl⟩

theorem same_array_trans {S F : Type} {u v w : World S F} (h1 : same_array u v)
    (h2 : same_array v w) : same_array u w :=
  ⟨h2.1.trans h1.1, h2.2.trans h1.2⟩

theorem rs_curve_changed_same {S F : Type} (ops : SplineOps S F) (w : World S F) :
    same_array w (rs_curve_changed ops w) := by
  unfold same_array
  rw [rs_curve_changed_curve]
  exact ⟨rfl, rfl⟩

theorem add_knot_same {S F : Type} (ops : SplineOps S F) (w : World S F) (x y : F) :
    same_array w (rs_curve_widget_add_knot ops w x y) := by
  unfold rs_curve_widget_add_knot
  exact same_array_trans ⟨rfl, rfl⟩ (rs_curve_changed_same ops _)

theorem move_knot_same {S F : Type} (ops : SplineOps S F) (w : World S F) (knot : Int)
    (x y : F) : same_array w (rs_curve_widget_move_knot ops w knot x y) := by
  unfold rs_curve_widget_move_knot
  exact same_array_trans ⟨rfl, rfl⟩ (rs_curve_changed_same ops _)

theorem set_knots_same {S F : Type} (ops : SplineOps S F) (w : World S F)
    (knots : Option (List (F × F))) : same_array w (rs_curve_widget_set_knots ops w knots) := by
  unfold rs_curve_widget_set_knots
  cases knots with
  | none => exact same_array_refl w
  | some ks => exact same_array_trans ⟨rfl, rfl⟩ (rs_curve_changed_same ops _)

theorem reset_same {S F : Type} (ops : SplineOps S F) (w : World S F) :
    same_array w (rs_curve_widget_reset ops w) := by
  unfold rs_curve_widget_reset
  exact same_array_trans ⟨rfl, rfl⟩ (rs_curve_changed_same ops _)

theorem button_press_same {S F : Type} (ops : SplineOps S F) (w : World S F)
    (event : GdkEventButton F) : same_array w (rs_curve_widget_button_press ops w event) := by
  unfold rs_curve_widget_button_press
  dsimp only
  split_ifs
  all_goals first
    | exact add_knot_same ops w _ _
    | exact ⟨rfl, rfl⟩

theorem motion_notify_same {S F : Type} (ops : SplineOps S F) (w : World S F)
    (event : GdkEventMotion S F) : same_array w (rs_curve_widget_motion_notify ops w event) := by
  unfold rs_curve_widget_motion_notify
  dsimp only
  split_ifs <;> exact ⟨rfl, rfl⟩

theorem delayed_update_same {S F : Type} (ops : SplineOps S F) (w : World S F) :
    same_array w (delayed_update ops w) := by
  unfold delayed_update
  exact same_array_trans ⟨rfl, rfl⟩ (rs_curve_changed_same ops _)

theorem load_knot_same {S F : Type} (ops : SplineOps S F) (env : CurveEnv F)
    {w w1 : World S F} {k : XmlNode} (h : load_knot ops env w k = .ok w1) :
    same_array w w1 := by
  unfold load_knot at h
  split_ifs at h
  · split at h
    · cases h
    · split at h
      · cases h; exact add_knot_same ops w _ _
      · cases h; exact same_array_refl w
  · cases h; exact same_array_refl w

theorem load_knots_same {S F : Type} (ops : SplineOps S F) (env : CurveEnv F)
    (ks : List XmlNode) : ∀ {w w1 : World S F}, load_knots ops env w ks = .ok w1 →
      same_array w w1 := by
  induction ks with
  | nil => intro w w1 h; cases h; exact same_array_refl w
  | cons k ks ih =>
    intro w w1 h
    rw [load_knots] at h
    cases hk : load_knot ops env w k with
    | error e => rw [hk] at h; cases h
    | ok w2 =>
      rw [hk] at h
      exact same_array_trans (load_knot_same ops env hk) (ih h)

theorem load_node_same {S F : Type} (ops : SplineOps S F) (env : CurveEnv F)
    {w w1 : World S F} {n : XmlNode} (h : load_node ops env w n = .ok w1) :
    same_array w w1 := by
  unfold load_node at h
  split_ifs at h
  · have h2 := load_knots_same ops env _ h
    exact ⟨h2.1, h2.2⟩
  · cases h; exact same_array_refl w

theorem load_nodes_same {S F : Type} (ops : SplineOps S F) (env : CurveEnv F)
    (ns : List XmlNode) : ∀ {w w1 : World S F}, load_nodes ops env w ns = .ok w1 →
      same_array w w1 := by
  induction ns with
  | nil => intro w w1 h; cases h; exact same_array_refl w
  | cons n ns ih =>
    intro w w1 h
    rw [load_nodes] at h
    cases hn : load_node ops env w n with
    | error e => rw [hn] at h; cases h
    | ok w2 =>
      rw [hn] at h
      exact same_array_trans (load_node_same ops env hn) (ih h)

theorem load_same {S F : Type} (ops : SplineOps S F) (env : CurveEnv F)
    {w : World S F} {filename : Option gstr} {r : World S F × Bool}
    (h : rs_curve_widget_load ops env w filename = .ok r) : same_array w r.1 := by
  unfold rs_curve_widget_load at h
  split at h
  · cases h; exact same_array_refl w
  · split_ifs at h
    · cases h; exact same_array_refl w
    · split at h
      · cases h; exact same_array_refl w
      · split at h
        · cases h
        · rename_i w1 hw1
          cases h
          exact load_nodes_same ops env _ hw1

theorem set_array_invariant_holds {S F : Type} (w : World S F) (array : Option Nat) (n : Nat) :
    array_invariant (rs_curve_widget_set_array w array n) := by
  unfold rs_curve_widget_set_array array_invariant
  split_ifs with h
  · obtain ⟨h1, h2⟩ := h
    cases array with
    | none => simp at h1
    | some p => simp [h2]
  · simp

theorem call_invariant {S F : Type} (ops : SplineOps S F) (env : CurveEnv F)
    {w w1 : World S F} (c : Call S F) (hinv : array_invariant w)
    (h : c.run ops env w = .ok w1) : array_invariant w1 := by
  have keep : ∀ {v : World S F}, same_array w v → array_invariant v := by
    intro v hv
    unfold array_invariant at hinv ⊢
    rw [hv.1, hv.2]
    exact hinv
  cases c with
  | set_array array n => cases h; exact set_array_invariant_holds w array n
  | add_knot x y => cases h; exact keep (add_knot_same ops w x y)
  | move_knot knot x y => cases h; exact keep (move_knot_same ops w knot x y)
  | set_knots knots => cases h; exact keep (set_knots_same ops w knots)
  | reset => cases h; exact keep (reset_same ops w)
  | load filename =>
    simp only [Call.run] at h
    cases hl : rs_curve_widget_load ops env w filename with
    | error e => rw [hl] at h; cases h
    | ok r => rw [hl] at h; cases h; exact keep (load_same ops env hl)
  | button_press event => cases h; exact keep (button_press_same ops w event)
  | button_release => cases h; exact keep (rs_curve_changed_same ops w)
  | motion_notify event => cases h; exact keep (motion_notify_same ops w event)
  | delayed_update => cases h; exact keep (delayed_update_same ops w)

theorem run_calls_invariant {S F : Type} (ops : SplineOps S F) (env : CurveEnv F)
    (cs : List (Call S F)) : ∀ {w w1 : World S F}, array_invariant w →
      run_calls ops env w cs = .ok w1 → array_invariant w1 := by
  induction cs with
  | nil => intro w w1 hinv h; cases h; exact hinv
  | cons c cs ih =>
    intro w w1 hinv h
    rw [run_calls] at h
    cases hc : c.run ops env w with
    | error e => rw [hc] at h; cases h
    | ok w2 =>
      rw [hc] at h
      exact ih (call_invariant ops env c hinv hc) h

/-- C7. `rs_curve_widget_set_array` stores `(array, n)` when `array` is not NULL and `n`
is not 0, and `(NULL, 0)` in every other case. The stored array is therefore NULL exactly
when the stored length is 0: after initialisation, after every call of `set_array`, and
after any sequence of calls of the widget routines; and when `rs_curve_changed` samples
(stored length above 0) it writes the samples into the registered, non-NULL array. -/
theorem set_array_sets_or_unsets {S F : Type} (ops : SplineOps S F) (env : CurveEnv F)
    (heap : Nat → List F) :
    (∀ (w : World S F) (p n : Nat), n ≠ 0 →
      (rs_curve_widget_set_array w (some p) n).curve.array = some p ∧
      (rs_curve_widget_set_array w (some p) n).curve.array_length = n) ∧
    (∀ (w : World S F) (array : Option Nat) (n : Nat), array = none ∨ n = 0 →
      (rs_curve_widget_set_array w array n).curve.array = none ∧
      (rs_curve_widget_set_array w array n).curve.array_length = 0) ∧
    array_invariant (rs_curve_widget_init ops heap) ∧
    (∀ (w : World S F) (array : Option Nat) (n : Nat),
      array_invariant (rs_curve_widget_set_array w array n)) ∧
    (∀ (calls : List (Call S F)) (w : World S F),
      run_calls ops env (rs_curve_widget_init ops heap) calls = .ok w → array_invariant w) ∧
    (∀ w : World S F, array_invariant w → 0 < w.curve.array_length →
      ∃ p, w.curve.array = some p ∧
        (rs_curve_changed ops w).heap p =
          ops.rs_spline_sample w.curve.spline (w.heap p) w.curve.array_length) := by
  refine ⟨?_, ?_, ?_, set_array_invariant_holds, ?_, ?_⟩
  · intro w p n hn
    unfold rs_curve_widget_set_array
    simp [hn]
  · intro w array n h
    unfold rs_curve_widget_set_array
    rcases h with h | h
    · subst h; simp
    · subst h; simp
  · simp [array_invariant, rs_curve_widget_init]
  · intro calls w h
    exact run_calls_invariant ops env calls (by simp [array_invariant, rs_curve_widget_init]) h
  · intro w hinv hlen
    cases ha : w.curve.array with
    | none => exact absurd (hinv.mp ha) (by omega)
    | some p =>
      refine ⟨p, rfl, ?_⟩
      unfold rs_curve_changed rs_curve_widget_sample
      dsimp only
      rw [if_pos hlen, ha]
      simp

/-- C9. With at least one knot in the spline, `rs_curve_widget_move_knot` hands to
`rs_spline_move` the index `knot` itself when `0 ≤ knot < length` and `length - 1`
otherwise (a negative `knot` stands for the last knot), so the index lies in
`0 .. length - 1`; `x` and `y` are handed on unchanged, and the change is propagated
with `rs_curve_changed`. `knot` ranges over the `gint` values. -/
theorem move_knot_index_in_range {S F : Type} (ops : SplineOps S F) (w : World S F)
    (knot : Int) (x y : F) (hlen : 1 ≤ ops.rs_spline_length w.curve.spline)
    (hlen31 : ops.rs_spline_length w.curve.spline < 2147483648)
    (hlo : -2147483648 ≤ knot) (hhi : knot < 2147483648) :
    rs_curve_widget_move_knot ops w knot x y =
      rs_curve_changed ops { w with curve := { w.curve with
        spline := ops.rs_spline_move w.curve.spline
          (if 0 ≤ knot ∧ knot < ops.rs_spline_length w.curve.spline then knot
           else (ops.rs_spline_length w.curve.spline : Int) - 1) x y } } ∧
    0 ≤ (if 0 ≤ knot ∧ knot < ops.rs_spline_length w.curve.spline then knot
         else (ops.rs_spline_length w.curve.spline : Int) - 1) ∧
    (if 0 ≤ knot ∧ knot < ops.rs_spline_length w.curve.spline then knot
     else (ops.rs_spline_length w.curve.spline : Int) - 1) <
      ops.rs_spline_length w.curve.spline := by
  have hidx : move_knot_index ops.length_unsigned (ops.rs_spline_length w.curve.spline) knot =
      (if 0 ≤ knot ∧ knot < ops.rs_spline_length w.curve.spline then knot
       else (ops.rs_spline_length w.curve.spline : Int) - 1) := by
    generalize ops.rs_spline_length w.curve.spline = len at hlen hlen31 ⊢
    unfold move_knot_index ge_length as_guint
    cases ops.length_unsigned <;> simp only [Bool.false_eq_true, if_false, if_true,
      decide_eq_true_eq] <;> split_ifs <;> omega
  refine ⟨?_, ?_, ?_⟩
  · unfold rs_curve_widget_move_knot
    rw [hidx]
  · split_ifs <;> omega
  · split_ifs <;> omega

theorem add_knot_sampled {S F : Type} (ops : SplineOps S F) (w : World S F) (x y : F) :
    Sampled ops (rs_curve_widget_add_knot ops w x y) := by
  unfold rs_curve_widget_add_knot
  exact rs_curve_changed_sampled ops _

theorem load_knot_sampled {S F : Type} (ops : SplineOps S F) (env : CurveEnv F)
    {w w1 : World S F} {k : XmlNode} (h : load_knot ops env w k = .ok w1) :
    w1 = w ∨ Sampled ops w1 := by
  unfold load_knot at h
  split_ifs at h
  · split at h
    · cases h
    · split at h
      · cases h; exact Or.inr (add_knot_sampled ops w _ _)
      · cases h; exact Or.inl rfl
  · cases h; exact Or.inl rfl

theorem load_knots_sampled {S F : Type} (ops : SplineOps S F) (env : CurveEnv F)
    (ks : List XmlNode) : ∀ {w w1 : World S F}, load_knots ops env w ks = .ok w1 →
      w1 = w ∨ Sampled ops w1 := by
  induction ks with
  | nil => intro w w1 h; cases h; exact Or.inl rfl
  | cons k ks ih =>
    intro w w1 h
    rw [load_knots] at h
    cases hk : load_knot ops env w k with
    | error e => rw [hk] at h; cases h
    | ok w2 =>
      rw [hk] at h
      rcases ih h with h1 | h1
      · subst h1
        exact load_knot_sampled ops env hk
      · exact Or.inr h1

/-- C8 (counterexample). A left button press on the active knot moves the knot and leaves
the registered array as it was: with the knots (0, 0), (10, 10), an array of two samples
registered and the pointer on the second knot, the press at (5, 7) changes the spline to
(0, 0), (5, 7) while the array still holds the samples 10, 10 of the old spline, not the
samples 7, 7 of the new one. -/
theorem button_press_leaves_array_stale :
    world_example.curve.array = some 0 ∧ world_example.curve.array_length = 2 ∧
    world_example.curve.spline = [(0, 0), (10, 10)] ∧
    (rs_curve_widget_button_press list_spline world_example
      { button := 1, shift := false, x := 5, y := 7 }).curve.spline = [(0, 0), (5, 7)] ∧
    (rs_curve_widget_button_press list_spline world_example
      { button := 1, shift := false, x := 5, y := 7 }).heap 0 = [10, 10] ∧
    ¬ Sampled list_spline (rs_curve_widget_button_press list_spline world_example
      { button := 1, shift := false, x := 5, y := 7 }) := by
  refine ⟨by decide!, by decide!, by decide!, by decide!, by decide!, ?_⟩
  intro h
  obtain ⟨old, ho⟩ := h 0 (by decide!) (by decide!)
  have h1 : (rs_curve_widget_button_press list_spline world_example
      { button := 1, shift := false, x := 5, y := 7 }).heap 0 = [10, 10] := by decide!
  have h2 : list_spline.rs_spline_sample (rs_curve_widget_button_press list_spline
      world_example { button := 1, shift := false, x := 5, y := 7 }).curve.spline old
      (rs_curve_widget_button_press list_spline world_example
        { button := 1, shift := false, x := 5, y := 7 }).curve.array_length = [7, 7] := by
    have e1 : (rs_curve_widget_button_press list_spline world_example
      { button := 1, shift := false, x := 5, y := 7 }).curve.spline = [(0, 0), (5, 7)] := by
      decide!
    have e2 : (rs_curve_widget_button_press list_spline world_example
      { button := 1, shift := false, x := 5, y := 7 }).curve.array_length = 2 := by decide!
    rw [e1, e2]
    rfl
  rw [h1, h2] at ho
  exact absurd ho (by decide)

/-- C8 (amended). The registered array holds the samples of the modified spline when
`rs_curve_widget_add_knot`, `rs_curve_widget_move_knot`, `rs_curve_widget_set_knots` and
`rs_curve_widget_reset` return, and `rs_curve_widget_load` has it re-sampled after every
knot it adds. The button-press handler re-samples only when it adds a knot (left button
without Shift, no active knot); otherwise it leaves the array as it was, and so does the
pointer-motion handler, which schedules `delayed_update` when it has moved a knot. The
button-release handler and `delayed_update` re-sample. -/
theorem curve_change_propagation {S F : Type} (ops : SplineOps S F) (env : CurveEnv F)
    (w : World S F) :
    (∀ x y, Sampled ops (rs_curve_widget_add_knot ops w x y)) ∧
    (∀ knot x y, Sampled ops (rs_curve_widget_move_knot ops w knot x y)) ∧
    (∀ ks, Sampled ops (rs_curve_widget_set_knots ops w (some ks))) ∧
    Sampled ops (rs_curve_widget_reset ops w) ∧
    (∀ ks w1, load_knots ops env w ks = .ok w1 → w1 = w ∨ Sampled ops w1) ∧
    (∀ event : GdkEventButton F, event.button = 1 → event.shift = false →
      w.curve.active_knot = -1 → Sampled ops (rs_curve_widget_button_press ops w event)) ∧
    (∀ event : GdkEventButton F,
      ¬ (event.button = 1 ∧ event.shift = false ∧ w.curve.active_knot = -1) →
      (rs_curve_widget_button_press ops w event).heap = w.heap) ∧
    (∀ event : GdkEventMotion S F, (rs_curve_widget_motion_notify ops w event).heap = w.heap) ∧
    (∀ event : GdkEventMotion S F, event.button1 = true → 0 ≤ w.curve.active_knot →
      (rs_curve_widget_motion_notify ops w event).curve.delay_update = event.timeout_id) ∧
    Sampled ops (rs_curve_widget_button_release ops w) ∧
    Sampled ops (delayed_update ops w) := by
  refine ⟨add_knot_sampled ops w, ?_, ?_, ?_, ?_, ?_, ?_, ?_, ?_, ?_, ?_⟩
  · intro knot x y
    unfold rs_curve_widget_move_knot
    exact rs_curve_changed_sampled ops _
  · intro ks
    unfold rs_curve_widget_set_knots
    exact rs_curve_changed_sampled ops _
  · unfold rs_curve_widget_reset
    exact rs_curve_changed_sampled ops _
  · intro ks w1 h
    exact load_knots_sampled ops env ks h
  · intro event hb hs ha
    unfold rs_curve_widget_button_press
    simp only [hb, hs, ha, Bool.false_eq_true, and_false, if_false, and_self, if_true]
    exact add_knot_sampled ops w _ _
  · intro event hne
    unfold rs_curve_widget_button_press
    dsimp only
    by_cases h1 : event.button = 1 ∧ event.shift = true
    · simp only [h1, and_self, if_true]
      have : ¬ ((2 : Nat) = 1) := by decide
      simp only [this, false_and, if_false]
      split_ifs <;> rfl
    · simp only [h1, if_false]
      by_cases h2 : event.button = 1 ∧ w.curve.active_knot = -1
      · exfalso
        apply hne
        refine ⟨h2.1, ?_, h2.2⟩
        cases hs : event.shift with
        | false => rfl
        | true => exact absurd ⟨h2.1, hs⟩ h1
      · simp only [h2, if_false]
        split_ifs <;> rfl
  · intro event
    unfold rs_curve_widget_motion_notify
    dsimp only
    split_ifs <;> rfl
  · intro event hb ha
    unfold rs_curve_widget_motion_notify
    dsimp only
    rw [if_pos ⟨hb, ha⟩]
  · unfold rs_curve_widget_button_release
    exact rs_curve_changed_sampled ops _
  · unfold delayed_update
    exact rs_curve_changed_sampled ops _

theorem add_knot_spline {S F : Type} (ops : SplineOps S F) (w : World S F) (x y : F) :
    (rs_curve_widget_add_knot ops w x y).curve.spline = ops.rs_spline_add w.curve.spline x y := by
  unfold rs_curve_widget_add_knot
  rw [rs_curve_changed_curve]

theorem load_knot_of_text {S F : Type} (ops : SplineOps S F) (env : CurveEnv F)
    (w : World S F) (k : XmlNode) (ht : k.name = "AnchorXY".toList → k.text ≠ none) :
    ∃ w1, load_knot ops env w k = .ok w1 ∧
      w1.curve.spline =
        (match anchor_fields k with
         | some a => ops.rs_spline_add w.curve.spline (env.rs_atof a.1) (env.rs_atof a.2)
         | none => w.curve.spline) := by
  unfold load_knot anchor_fields
  by_cases hn : k.name = "AnchorXY".toList
  · rw [if_pos hn, if_pos hn]
    cases htx : k.text with
    | none => exact absurd htx (ht hn)
    | some val =>
      dsimp only
      split
      · exact ⟨_, rfl, add_knot_spline ops w _ _⟩
      · exact ⟨_, rfl, rfl⟩
  · rw [if_neg hn, if_neg hn]
    exact ⟨_, rfl, rfl⟩

theorem load_knots_of_text {S F : Type} (ops : SplineOps S F) (env : CurveEnv F)
    (ks : List XmlNode) : ∀ (w : World S F), anchors_have_text ks →
      ∃ w1, load_knots ops env w ks = .ok w1 ∧
        w1.curve.spline =
          (anchors ks).foldl
            (fun s a => ops.rs_spline_add s (env.rs_atof a.1) (env.rs_atof a.2))
            w.curve.spline := by
  induction ks with
  | nil => intro w _; exact ⟨w, rfl, rfl⟩
  | cons k ks ih =>
    intro w ht
    obtain ⟨w2, hk, hs2⟩ := load_knot_of_text ops env w k (ht k (List.mem_cons_self _ _))
    obtain ⟨w1, hks, hs1⟩ := ih w2 (fun j hj => ht j (List.mem_cons_of_mem _ hj))
    refine ⟨w1, ?_, ?_⟩
    · rw [load_knots, hk]
      exact hks
    · rw [hs1, hs2]
      unfold anchors
      rw [List.filterMap_cons]
      cases anchor_fields k with
      | none => rfl
      | some a => rfl

theorem load_nodes_of_text {S F : Type} (ops : SplineOps S F) (env : CurveEnv F)
    (doc : List XmlNode) : ∀ (w : World S F),
      (∀ n ∈ doc, n.name = "Curve".toList → anchors_have_text n.children) →
      ∃ w1, load_nodes ops env w doc = .ok w1 := by
  induction doc with
  | nil => intro w _; exact ⟨w, rfl⟩
  | cons n ns ih =>
    intro w ht
    have hn : ∃ w2, load_node ops env w n = .ok w2 := by
      unfold load_node
      by_cases hc : n.name = "Curve".toList
      · rw [if_pos hc]
        obtain ⟨w2, h2, _⟩ := load_knots_of_text ops env n.children
          { w with curve := { w.curve with
              spline := delete_knots ops w.curve.spline
                (ops.rs_spline_get_knots w.curve.spline).length } }
          (ht n (List.mem_cons_self _ _) hc)
        exact ⟨w2, h2⟩
      · rw [if_neg hc]
        exact ⟨w, rfl⟩
    obtain ⟨w2, h2⟩ := hn
    obtain ⟨w1, h1⟩ := ih w2 (fun j hj => ht j (List.mem_cons_of_mem _ hj))
    exact ⟨w1, by rw [load_nodes, h2]; exact h1⟩

theorem load_nodes_no_curve {S F : Type} (ops : SplineOps S F) (env : CurveEnv F)
    (doc : List XmlNode) (w : World S F) (h : ∀ n ∈ doc, n.name ≠ "Curve".toList) :
    load_nodes ops env w doc = .ok w := by
  induction doc with
  | nil => rfl
  | cons n ns ih =>
    have hn : load_node ops env w n = .ok w := by
      unfold load_node
      rw [if_neg (h n (List.mem_cons_self _ _))]
    rw [load_nodes, hn]
    exact ih (fun j hj => h j (List.mem_cons_of_mem _ hj))

/-- C10 (counterexample). The file `nested.xml` parses to a document that has a `Curve`
element with two usable `AnchorXY` children, but not as its root. The load returns TRUE
and the knots are the two knots the widget had before: none was removed, none added. -/
theorem load_ignores_nested_curve :
    curve_env_example.xmlParseFile "nested.xml".toList = some doc_nested ∧
    has_element_list "Curve".toList doc_nested = true ∧
    world_example.curve.spline = [(0, 0), (10, 10)] ∧
    (rs_curve_widget_load list_spline curve_env_example world_example
        (some "nested.xml".toList)).map (fun r => (r.1.curve.spline, r.2)) =
      .ok ([(0, 0), (10, 10)], true) := by
  refine ⟨by rfl, by decide!, by decide!, by decide!⟩

/-- C10 (amended). `rs_curve_widget_load` returns FALSE and leaves the widget untouched
when `filename` is NULL, when it does not name a regular file, and when the file does not
parse. For a parsed document in which every `AnchorXY` child of a top level `Curve` node
has text content it returns TRUE; and when the root element is named `Curve` (and no
later top level node is), the knots afterwards are those obtained by deleting the indices
`nknots - 1` down to 0 and then adding, in document order, one knot per `AnchorXY` child
of the root whose text has at least two space-separated fields. A `Curve` element below
the root is not looked at. -/
theorem rs_curve_widget_load_result {S F : Type} (ops : SplineOps S F) (env : CurveEnv F)
    (w : World S F) :
    rs_curve_widget_load ops env w none = .ok (w, false) ∧
    (∀ fname, env.g_file_test_regular fname = false →
      rs_curve_widget_load ops env w (some fname) = .ok (w, false)) ∧
    (∀ fname, env.xmlParseFile fname = none →
      rs_curve_widget_load ops env w (some fname) = .ok (w, false)) ∧
    (∀ fname doc, env.g_file_test_regular fname = true → env.xmlParseFile fname = some doc →
      (∀ n ∈ doc, n.name = "Curve".toList → anchors_have_text n.children) →
      ∃ w1, rs_curve_widget_load ops env w (some fname) = .ok (w1, true)) ∧
    (∀ fname root rest, env.g_file_test_regular fname = true →
      env.xmlParseFile fname = some (root :: rest) → root.name = "Curve".toList →
      (∀ n ∈ rest, n.name ≠ "Curve".toList) → anchors_have_text root.children →
      ∃ w1, rs_curve_widget_load ops env w (some fname) = .ok (w1, true) ∧
        w1.curve.spline =
          (anchors root.children).foldl
            (fun s a => ops.rs_spline_add s (env.rs_atof a.1) (env.rs_atof a.2))
            (delete_knots ops w.curve.spline (ops.rs_spline_get_knots w.curve.spline).length)) ∧
    (∀ fname doc, env.g_file_test_regular fname = true → env.xmlParseFile fname = some doc →
      (∀ n ∈ doc, n.name ≠ "Curve".toList) →
      rs_curve_widget_load ops env w (some fname) = .ok (w, true)) := by
  refine ⟨rfl, ?_, ?_, ?_, ?_, ?_⟩
  · intro fname h
    unfold rs_curve_widget_load
    simp only [h, if_true]
  · intro fname h
    unfold rs_curve_widget_load
    simp only [h]
    split_ifs <;> rfl
  · intro fname doc hreg hdoc ht
    obtain ⟨w1, h1⟩ := load_nodes_of_text ops env doc w ht
    refine ⟨w1, ?_⟩
    unfold rs_curve_widget_load
    simp only [hreg, Bool.true_eq_false, if_false, hdoc, h1]
  · intro fname root rest hreg hdoc hroot hrest ht
    obtain ⟨w1, h1, hs1⟩ := load_knots_of_text ops env root.children
      { w with curve := { w.curve with
          spline := delete_knots ops w.curve.spline
            (ops.rs_spline_get_knots w.curve.spline).length } } ht
    have hnode : load_node ops env w root = .ok w1 := by
      unfold load_node
      rw [if_pos hroot]
      exact h1
    refine ⟨w1, ?_, hs1⟩
    unfold rs_curve_widget_load
    simp only [hreg, Bool.true_eq_false, if_false, hdoc]
    rw [load_nodes, hnode]
    simp only [load_nodes_no_curve ops env rest w1 hrest]
  · intro fname doc hreg hdoc hno
    unfold rs_curve_widget_load
    simp only [hreg, Bool.true_eq_false, if_false, hdoc, load_nodes_no_curve ops env doc w hno]

theorem button_press_eq_branch {S F : Type} (ops : SplineOps S F) (w : World S F)
    (event : GdkEventButton F) :
    rs_curve_widget_button_press ops w event =
      (button_press_branch ops w event).run ops w := by
  unfold rs_curve_widget_button_press button_press_branch
  dsimp only
  split_ifs <;> rfl

theorem lt_length_minus_one_iff (unsigned : Bool) (a : Int) (len : Nat) (ha : 0 < a)
    (hhi : a < 2147483648) (hlen : len < 2147483648) :
    lt_length_minus_one unsigned a len = true ↔
      (a < (len : Int) - 1 ∨ (len = 0 ∧ unsigned = true)) := by
  unfold lt_length_minus_one as_guint
  cases unsigned
  · simp only [Bool.false_eq_true, if_false, decide_eq_true_eq, and_false, or_false]
  · simp only [if_true, decide_eq_true_eq, and_true]
    omega

theorem button_press_branch_delete_iff {S F : Type} (ops : SplineOps S F) (w : World S F)
    (event : GdkEventButton F) (k : Int)
    (hlen : ops.rs_spline_length w.curve.spline < 2147483648)
    (hhi : w.curve.active_knot < 2147483648) :
    button_press_branch ops w event = .delete k ↔
      (k = w.curve.active_knot ∧
        (event.button = 2 ∨ (event.button = 1 ∧ event.shift = true)) ∧
        0 < w.curve.active_knot ∧
        (w.curve.active_knot < (ops.rs_spline_length w.curve.spline : Int) - 1 ∨
          (ops.rs_spline_length w.curve.spline = 0 ∧ ops.length_unsigned = true))) := by
  unfold button_press_branch
  dsimp only
  generalize hb : (if event.button = 1 ∧ event.shift = true then 2 else event.button) = b
  have hb2 : b = 2 ↔ (event.button = 2 ∨ (event.button = 1 ∧ event.shift = true)) := by
    rw [← hb]
    by_cases hs : event.button = 1 ∧ event.shift = true
    · rw [if_pos hs]
      exact ⟨fun _ => Or.inr hs, fun _ => rfl⟩
    · rw [if_neg hs]
      constructor
      · intro h2
        exact Or.inl h2
      · rintro (h2 | h2)
        · exact h2
        · exact absurd h2 hs
  constructor
  · intro h
    split_ifs at h with h1 h2 h3
    cases h
    exact ⟨rfl, hb2.mp h3.1, h3.2.1,
      (lt_length_minus_one_iff _ _ _ h3.2.1 hhi hlen).mp h3.2.2⟩
  · rintro ⟨rfl, hbtn, ha, hc⟩
    have hb3 : b = 2 := hb2.mpr hbtn
    have n1 : ¬ (b = 1 ∧ w.curve.active_knot = -1) := fun h => by omega
    have n2 : ¬ (b = 1 ∧ w.curve.active_knot ≥ 0) := fun h => by omega
    rw [if_neg n1, if_neg n2,
      if_pos ⟨hb3, ha, (lt_length_minus_one_iff _ _ _ ha hhi hlen).mpr hc⟩]

theorem button_press_branch_cases {S F : Type} (ops : SplineOps S F) (w : World S F)
    (event : GdkEventButton F) :
    button_press_branch ops w event = .add event.x event.y ∨
    button_press_branch ops w event = .move w.curve.active_knot event.x event.y ∨
    button_press_branch ops w event = .delete w.curve.active_knot ∨
    button_press_branch ops w event = .right_click ∨
    button_press_branch ops w event = .nothing := by
  unfold button_press_branch
  dsimp only
  split_ifs <;> simp

/-- C11. A button press deletes a point only if it is not the first or last. What the
handler does is the branch of its chain it takes. With the middle button, or the left
button with Shift held, and `0 < active_knot < length - 1` it takes the delete branch:
the knot at `active_knot` is handed to `rs_spline_delete` and `active_knot` is -1
afterwards. The delete branch is taken in that case only, the one exception being a
spline without any knot when `rs_spline_length` is declared unsigned (`length - 1` then
wraps around); there is no knot to remove then. In every other case the spline afterwards
is the old spline, or the old spline after `rs_spline_add` or `rs_spline_move`. So the
index handed to `rs_spline_delete` is never 0 and never `length - 1`. -/
theorem button_press_deletes_interior_only {S F : Type} (ops : SplineOps S F) (w : World S F)
    (event : GdkEventButton F)
    (hlen : ops.rs_spline_length w.curve.spline < 2147483648)
    (hhi : w.curve.active_knot < 2147483648) :
    rs_curve_widget_button_press ops w event =
      (button_press_branch ops w event).run ops w ∧
    ((event.button = 2 ∨ (event.button = 1 ∧ event.shift = true)) →
      0 < w.curve.active_knot →
      w.curve.active_knot < (ops.rs_spline_length w.curve.spline : Int) - 1 →
      button_press_branch ops w event = .delete w.curve.active_knot ∧
      (rs_curve_widget_button_press ops w event).curve.spline =
        ops.rs_spline_delete w.curve.spline w.curve.active_knot ∧
      (rs_curve_widget_button_press ops w event).curve.active_knot = -1) ∧
    (∀ k, button_press_branch ops w event = .delete k ↔
      (k = w.curve.active_knot ∧
        (event.button = 2 ∨ (event.button = 1 ∧ event.shift = true)) ∧
        0 < w.curve.active_knot ∧
        (w.curve.active_knot < (ops.rs_spline_length w.curve.spline : Int) - 1 ∨
          (ops.rs_spline_length w.curve.spline = 0 ∧ ops.length_unsigned = true)))) ∧
    ((∀ k, button_press_branch ops w event ≠ .delete k) →
      (rs_curve_widget_button_press ops w event).curve.spline = w.curve.spline ∨
      (rs_curve_widget_button_press ops w event).curve.spline =
        ops.rs_spline_add w.curve.spline event.x event.y ∨
      (rs_curve_widget_button_press ops w event).curve.spline =
        ops.rs_spline_move w.curve.spline w.curve.active_knot event.x event.y) ∧
    (∀ k, button_press_branch ops w event = .delete k →
      k ≠ 0 ∧ (1 ≤ ops.rs_spline_length w.curve.spline →
        k ≠ (ops.rs_spline_length w.curve.spline : Int) - 1)) := by
  refine ⟨button_press_eq_branch ops w event, ?_, ?_, ?_, ?_⟩
  · intro hbtn ha hlt
    have hbr : button_press_branch ops w event = .delete w.curve.active_knot :=
      (button_press_branch_delete_iff ops w event _ hlen hhi).mpr
        ⟨rfl, hbtn, ha, Or.inl hlt⟩
    refine ⟨hbr, ?_, ?_⟩
    · rw [button_press_eq_branch, hbr]
      rfl
    · rw [button_press_eq_branch, hbr]
      rfl
  · intro k
    exact button_press_branch_delete_iff ops w event k hlen hhi
  · intro hnd
    rw [button_press_eq_branch]
    rcases button_press_branch_cases ops w event with h | h | h | h | h
    · rw [h]
      exact Or.inr (Or.inl (add_knot_spline ops w _ _))
    · rw [h]
      exact Or.inr (Or.inr rfl)
    · exact absurd h (hnd _)
    · rw [h]
      exact Or.inl rfl
    · rw [h]
      exact Or.inl rfl
  · intro k hk
    obtain ⟨rfl, _, ha, hc⟩ := (button_press_branch_delete_iff ops w event k hlen hhi).mp hk
    refine ⟨by omega, fun h1 => ?_⟩
    rcases hc with hc | hc
    · omega
    · omega

/-! ## The theorems at concrete inputs -/

/-- C1 at a concrete input: with `img_1` and `img_2` existing, the template `%f_%c` on the
file `/photos/img.cr2` gives `img_3`, the expansion with the least free counter value 3. -/
theorem filename_parse_counter_least_witness :
    filename_parse env_example 3 temp_example (some "%f_%c".toList)
        (some "/photos/img.cr2".toList) 0 false =
      (expansion env_example temp_example "%f_%c".toList "/photos/img.cr2".toList 0 false 3).map
        some ∧
    expansion env_example temp_example "%f_%c".toList "/photos/img.cr2".toList 0 false 3 =
      .ok "img_3".toList := by
  have e3 : expansion env_example temp_example "%f_%c".toList "/photos/img.cr2".toList 0 false 3 =
      .ok "img_3".toList := by decide!
  refine ⟨?_, e3⟩
  apply filename_parse_counter_least env_example temp_example "%f_%c".toList
    "/photos/img.cr2".toList 0 false 3 3 (Nat.le_refl 3)
  refine Or.inr ⟨by decide, by decide, ?_, ?_⟩
  · rintro ⟨o, ho, hx⟩
    rw [e3] at ho
    cases ho
    revert hx
    decide!
  · intro i h1 h2
    have hi : i = 1 ∨ i = 2 := by omega
    rcases hi with rfl | rfl
    · exact ⟨"img_1".toList, by decide!, by decide!⟩
    · exact ⟨"img_2".toList, by decide!, by decide!⟩

/-- C2 at a concrete input: `a_%3c.jpg` with counter value 7 gives `a_007.jpg`. -/
theorem counter_token_format_witness :
    ∃ t1, pass md_example [] [] 0 ("a_".toList ++ ['%', Char.ofNat (48 + 3), 'c'] ++ ".jpg".toList)
        7 temp_example false =
      .ok (t1, true,
        "a_".toList ++ (List.replicate (3 - (Nat.toDigits 10 7).length) '0' ++ Nat.toDigits 10 7)
          ++ ".jpg".toList) :=
  (counter_token_format md_example [] [] 0 7 3 (by decide) (by decide)).2.2.2.1
    "a_".toList ".jpg".toList temp_example false (by decide!) (by decide!) (by decide!)
    (by decide!) (by decide!)

/-- C3 at a concrete input: `x_%f.jpg` on `/home/a.b/img.0001.cr2` gives
`x_img.0001.jpg`. -/
theorem filename_token_basename_witness :
    filename_parse env_example 1 temp_example (some ("x_".toList ++ ['%', 'f'] ++ ".jpg".toList))
        (some "/home/a.b/img.0001.cr2".toList) 0 false =
      .ok (some ("x_".toList ++
        cut_extension (env_example.g_path_get_basename "/home/a.b/img.0001.cr2".toList) ++
        ".jpg".toList)) ∧
    cut_extension (env_example.g_path_get_basename "/home/a.b/img.0001.cr2".toList) =
      "img.0001".toList :=
  ⟨(filename_token_basename env_example temp_example "/home/a.b/img.0001.cr2".toList 0 false).2.1
    1 "x_".toList ".jpg".toList (by decide) (by decide!) (by decide!) (by decide!) (by decide!),
   by decide!⟩

/-- C4 at a concrete input: with snapshot 3 and an array holding the letter `x`, the
template `%s` gives `x`. -/
theorem setting_token_unknown_snapshot_witness :
    filename_parse env_example 1 temp_example (some ['%', 's']) (some "img.cr2".toList) 3 false =
      .ok (some (if temp_example 0 = NUL then [] else [temp_example 0])) ∧
    (if temp_example 0 = NUL then [] else [temp_example 0]) = ['x'] :=
  ⟨setting_token_unknown_snapshot env_example 1 temp_example "img.cr2".toList 3 false
    (by decide) (by decide) (by decide) (by decide), by decide!⟩

/-- C5 at a concrete input: the template `export_100%%.jpg` is returned unchanged. -/
theorem filename_parse_plain_witness :
    filename_parse env_example 1 temp_example (some "export_100%%.jpg".toList)
        (some "img.cr2".toList) 0 false = .ok (some "export_100%%.jpg".toList) :=
  filename_parse_plain env_example 1 temp_example "export_100%%.jpg".toList "img.cr2".toList 0
    false (by decide) (by decide!) (by decide!) (by decide!)

/-- C6 at concrete inputs: a NULL file name gives NULL, and the result for the template
`%f` and the file name `img.cr2` is not NULL. -/
theorem filename_parse_null_witness :
    filename_parse env_example 0 temp_example (some ['%', 'f']) none 7 true = .ok none ∧
    filename_parse env_example 1 temp_example (some ['%', 'f']) (some "img.cr2".toList) 0 false =
      .ok (some "img".toList) ∧
    some "img".toList ≠ (none : Option gstr) :=
  ⟨(filename_parse_null env_example 0 temp_example (some ['%', 'f']) none 7 true).1
      (Or.inl rfl),
   by decide!,
   (filename_parse_null env_example 1 temp_example (some ['%', 'f']) (some "img.cr2".toList) 0
      false).2 (some "img".toList) (by decide) (by decide) (by decide!)⟩

/-- C7 at a concrete input: registering an array of two samples at address 0 stores the
pair, and unregistering stores NULL and 0. -/
theorem set_array_sets_or_unsets_witness :
    ((rs_curve_widget_set_array world_example (some 0) 2).curve.array = some 0 ∧
      (rs_curve_widget_set_array world_example (some 0) 2).curve.array_length = 2) ∧
    ((rs_curve_widget_set_array world_example (some 0) 0).curve.array = none ∧
      (rs_curve_widget_set_array world_example (some 0) 0).curve.array_length = 0) ∧
    array_invariant world_example :=
  ⟨(set_array_sets_or_unsets list_spline curve_env_example (fun _ => [])).1 world_example 0 2
      (by decide),
   (set_array_sets_or_unsets list_spline curve_env_example (fun _ => [])).2.1 world_example
      (some 0) 0 (Or.inr rfl),
   (set_array_sets_or_unsets list_spline curve_env_example (fun _ => [])).2.2.2.2.1
      [.set_array (some 0) 2, .add_knot 0 0, .add_knot 10 10,
       .motion_notify hover_example]
      world_example rfl⟩

/-- C8 at a concrete input: after a left press without active knot the array holds the
samples of the spline with the added knot. -/
theorem curve_change_propagation_witness :
    Sampled list_spline (rs_curve_widget_add_knot list_spline world_example 3 4) ∧
    (rs_curve_widget_add_knot list_spline world_example 3 4).heap 0 = [14, 14] :=
  ⟨(curve_change_propagation list_spline curve_env_example world_example).1 3 4, by decide!⟩

/-- C9 at a concrete input: on a spline of two knots the argument -1 moves the knot with
index 1. -/
theorem move_knot_index_in_range_witness :
    (rs_curve_widget_move_knot list_spline world_example (-1) 3 4).curve.spline =
      [(0, 0), (3, 4)] ∧
    (0 : Int) ≤ (if 0 ≤ (-1 : Int) ∧
        (-1 : Int) < list_spline.rs_spline_length world_example.curve.spline then (-1 : Int)
      else (list_spline.rs_spline_length world_example.curve.spline : Int) - 1) := by
  have h := move_knot_index_in_range list_spline world_example (-1) 3 4 (by decide!)
    (by decide!) (by decide) (by decide)
  refine ⟨?_, h.2.1⟩
  rw [h.1]
  decide!

/-- C10 at a concrete input: `curve.xml` has the root `Curve` with the children `0 0`,
`7` and `4 9`; the load returns TRUE and the knots are (0, 0) and (4, 9). -/
theorem rs_curve_widget_load_result_witness :
    (∃ w1, rs_curve_widget_load list_spline curve_env_example world_example
        (some "curve.xml".toList) = .ok (w1, true) ∧
      w1.curve.spline =
        (anchors (XmlNode.mk "Curve".toList none
            [.mk "AnchorXY".toList (some "0 0".toList) [],
             .mk "AnchorXY".toList (some "7".toList) [],
             .mk "AnchorXY".toList (some "4 9".toList) []]).children).foldl
          (fun s a => list_spline.rs_spline_add s (curve_env_example.rs_atof a.1)
            (curve_env_example.rs_atof a.2))
          (delete_knots list_spline world_example.curve.spline
            (list_spline.rs_spline_get_knots world_example.curve.spline).length)) ∧
    (rs_curve_widget_load list_spline curve_env_example world_example
        (some "curve.xml".toList)).map (fun r => (r.1.curve.spline, r.2)) =
      .ok ([(0, 0), (4, 9)], true) ∧
    rs_curve_widget_load list_spline curve_env_example world_example
        (some "photos".toList) = .ok (world_example, false) :=
  ⟨(rs_curve_widget_load_result list_spline curve_env_example world_example).2.2.2.2.1
      "curve.xml".toList _ [] (by decide!) rfl rfl (by decide)
      (by
        intro k hk hn
        simp only [XmlNode.children, List.mem_cons, List.mem_singleton, List.not_mem_nil,
          or_false] at hk
        rcases hk with rfl | rfl | rfl <;> simp [XmlNode.text]),
   by decide!,
   (rs_curve_widget_load_result list_spline curve_env_example world_example).2.1
      "photos".toList (by decide!)⟩

/-- C11 at concrete inputs: with the knots (0, 0), (10, 10), (20, 20) and the pointer on
the middle knot, Shift with the left button removes the middle knot and leaves
`active_knot` at -1; with the knots (0, 0), (10, 10) and the pointer on the last knot the
same press removes nothing. -/
theorem button_press_deletes_interior_only_witness :
    (button_press_branch list_spline world_three shift_press_example =
        .delete world_three.curve.active_knot ∧
      (rs_curve_widget_button_press list_spline world_three shift_press_example).curve.spline =
        list_spline.rs_spline_delete world_three.curve.spline world_three.curve.active_knot ∧
      (rs_curve_widget_button_press list_spline world_three
        shift_press_example).curve.active_knot = -1) ∧
    world_three.curve.spline = [(0, 0), (10, 10), (20, 20)] ∧
    (rs_curve_widget_button_press list_spline world_three shift_press_example).curve.spline =
      [(0, 0), (20, 20)] ∧
    (rs_curve_widget_button_press list_spline world_example shift_press_example).curve.spline =
      [(0, 0), (10, 10)] :=
  ⟨(button_press_deletes_interior_only list_spline world_three shift_press_example
      (by decide!) (by decide!)).2.1 (Or.inr ⟨rfl, rfl⟩) (by decide!) (by decide!),
   by decide!, by decide!, by decide!⟩

/-- The exception of C11 at work on the list instance, whose length is unsigned: after a
reset the spline has no knot while `active_knot` is still 1; Shift with the left button
takes the delete branch, `active_knot` becomes -1, and the spline has as few knots as
before. -/
theorem button_press_on_empty_spline :
    (rs_curve_widget_reset list_spline world_example).curve.spline = [] ∧
    (rs_curve_widget_reset list_spline world_example).curve.active_knot = 1 ∧
    button_press_branch list_spline (rs_curve_widget_reset list_spline world_example)
      shift_press_example = .delete 1 ∧
    (rs_curve_widget_button_press list_spline (rs_curve_widget_reset list_spline world_example)
      shift_press_example).curve.spline = [] ∧
    (rs_curve_widget_button_press list_spline (rs_curve_widget_reset list_spline world_example)
      shift_press_example).curve.active_knot = -1 := by
  refine ⟨by decide!, by decide!, by decide!, by decide!, by decide!⟩

end Rawstudio
